import Mathlib

/-!
# rescue-proxy: credential verifier, metrics registry and fee-recipient policy

A shallow embedding of `router/authentication.go`, `metrics/metrics.go` and
`admin/admin.go`, and a model of the policy engine and the request rewriter after the
specification.

* Go pointers to mutable objects (`*MetricsRegistry`, the package variable `mtx`, the
  objects of the Prometheus client) become explicit state that every operation takes
  and returns.
* A Go panic is the `error` case of `Go α`.
* A Go `error` value is represented by its message, `nil` by `none`.
* Locks are not modelled: every operation is one atomic step.
-/

set_option autoImplicit false

/-! # Definitions -/

/-- A Go panic: the nil pointer dereference, which the embedded code can raise itself,
and the panic of the Prometheus library when a registration fails. -/
inductive Panic where
  | nilDereference
  | registration
deriving DecidableEq

/-- A Go computation that either returns or panics. -/
abbrev Go (α : Type) : Type := Except Panic α

/-- Go's `len` of a string: its length in bytes. -/
def len (s : String) : Nat := s.utf8ByteSize

/-! ## External packages, as far as the repository uses them -/

namespace http

/-- `http.StatusUnauthorized`. -/
def StatusUnauthorized : Int := 401

/-- An `http.Handler`. The only handler the embedded code builds is the one
`promhttp.Handler()` returns. -/
inductive Handler where
  | promhttp
deriving DecidableEq

end http

namespace codes

/-- The gRPC status codes (`google.golang.org/grpc/codes`). -/
inductive Code where
  | OK | Canceled | Unknown | InvalidArgument | DeadlineExceeded | NotFound
  | AlreadyExists | PermissionDenied | ResourceExhausted | FailedPrecondition
  | Aborted | OutOfRange | Unimplemented | Internal | Unavailable | DataLoss
  | Unauthenticated
deriving DecidableEq

end codes

namespace status

/-- A gRPC status: a code and a message. -/
structure Status where
  code : codes.Code
  message : String
deriving DecidableEq

/-- `status.Error(c, msg)`: the error that represents the status with code `c` and
message `msg`; the library returns `nil` when `c` is `OK`. -/
def Error (c : codes.Code) (msg : String) : Option Status :=
  if c = codes.Code.OK then none else some { code := c, message := msg }

end status

namespace gbp

/-- The values of `gbp.AuthenticationStatus` that the repository names. -/
inductive AuthenticationStatus where
  | Unauthorized
  | Forbidden
deriving DecidableEq

end gbp

namespace time

/-- Nanoseconds in a second (`time.Second`). -/
def Second : Int := 1000000000

/-- Largest `time.Duration`: `1<<63 - 1` nanoseconds. -/
def maxDuration : Int := 9223372036854775807

/-- Smallest `time.Duration`: `-1 << 63` nanoseconds. -/
def minDuration : Int := -9223372036854775808

/-- Seconds from January 1 of year 1 to the Unix epoch (`unixToInternal`). -/
def unixToInternal : Int := 62135596800

/-- The int64 that two's complement arithmetic leaves for the integer `x`. -/
def wrapInt64 (x : Int) : Int :=
  (x + 9223372036854775808) % 18446744073709551616 - 9223372036854775808

/-- An instant with nanosecond precision, given as nanoseconds since the Unix epoch. -/
structure Time where
  ns : Int
deriving DecidableEq

/-- `time.Unix(sec, nsec)` for `0 ≤ nsec < 10^9`. The library keeps the seconds since
year 1 in an int64, `sec + unixToInternal`, and this sum wraps. -/
def Unix (sec nsec : Int) : Time :=
  { ns := (wrapInt64 (sec + unixToInternal) - unixToInternal) * Second + nsec }

/-- `t.Before(u)`: whether `t` is strictly earlier than `u`. -/
def Time.Before (t u : Time) : Bool := decide (t.ns < u.ns)

/-- `t.Sub(u)`: the duration `t - u`, replaced by the largest or smallest duration
when it does not fit into an int64 number of nanoseconds. -/
def Time.Sub (t u : Time) : Int :=
  if maxDuration < t.ns - u.ns then maxDuration
  else if t.ns - u.ns < minDuration then minDuration
  else t.ns - u.ns

end time

namespace prometheus

/-- The fields of `prometheus.Opts` that the repository sets. The library defines
`CounterOpts` and `GaugeOpts` as this type. -/
structure Opts where
  Namespace : String
  Subsystem : String
  Name : String
deriving DecidableEq

abbrev CounterOpts : Type := Opts

abbrev GaugeOpts : Type := Opts

/-- The fields of `prometheus.HistogramOpts` that the repository sets. -/
structure HistogramOpts where
  Namespace : String
  Subsystem : String
  Name : String
deriving DecidableEq

/-- A counter object of the library: the options it was built with and the number of
`Inc` calls it has received. -/
structure CounterCell where
  opts : CounterOpts
  incs : Nat
deriving DecidableEq

/-- The metric objects the library has created and registered with the default
registerer so far, in creation order. -/
structure World where
  counters : List CounterCell
  gauges : List GaugeOpts
  histograms : List HistogramOpts
deriving DecidableEq

/-- A `prometheus.Counter` value: a reference to a counter object, given by its
position in `World.counters`. -/
structure Counter where
  ref : Nat
deriving DecidableEq

/-- A `prometheus.Gauge` value: a position in `World.gauges`. -/
structure Gauge where
  ref : Nat
deriving DecidableEq

/-- A `prometheus.Histogram` value: a position in `World.histograms`. -/
structure Histogram where
  ref : Nat
deriving DecidableEq

/-- Adds one `Inc` to the cell at position `i`. -/
def incAt : Nat → List CounterCell → List CounterCell
  | _, [] => []
  | 0, c :: cs => { c with incs := c.incs + 1 } :: cs
  | i + 1, c :: cs => c :: incAt i cs

/-- `c.Inc()`. -/
def Counter.Inc (c : Counter) (w : World) : World :=
  { w with counters := incAt c.ref w.counters }

/-- Number of `Inc` calls the counter `c` has received. -/
def Counter.read (c : Counter) (w : World) : Nat :=
  match w.counters[c.ref]? with
  | some cell => cell.incs
  | none => 0

end prometheus

namespace promauto

open prometheus

/-- What `promauto.NewCounter(opts)` returns and the state it leaves when its registration
with the default registerer succeeds: a new counter object, at zero. When the
registration fails the library panics instead; `prometheus.MustRegister` says when, and
`registering.Counter` is the lookup with that panic. -/
def NewCounter (opts : CounterOpts) (w : World) : Counter × World :=
  ({ ref := w.counters.length },
   { w with counters := w.counters ++ [{ opts := opts, incs := 0 }] })

/-- What `promauto.NewGauge(opts)` returns and the state it leaves when its registration
succeeds: a new gauge object. `registering.Gauge` is the lookup with the panic of a
failed registration. -/
def NewGauge (opts : GaugeOpts) (w : World) : Gauge × World :=
  ({ ref := w.gauges.length }, { w with gauges := w.gauges ++ [opts] })

/-- What `promauto.NewHistogram(opts)` returns and the state it leaves when its
registration succeeds: a new histogram object. `registering.Histogram` is the lookup with
the panic of a failed registration. -/
def NewHistogram (opts : HistogramOpts) (w : World) : Histogram × World :=
  ({ ref := w.histograms.length }, { w with histograms := w.histograms ++ [opts] })

end promauto

namespace pb

/-- `pb.OperatorType`. -/
inductive OperatorType where
  | OT_ROCKETPOOL
  | OT_SOLO
deriving DecidableEq

/-- `pb.Credential`. -/
structure Credential where
  NodeId : List Nat
  Timestamp : Int
  OperatorType : OperatorType
deriving DecidableEq

end pb

namespace credentials

/-- `credentials.AuthenticatedCredential`: a credential and its MAC. -/
structure AuthenticatedCredential where
  Credential : pb.Credential
  Mac : List Nat
deriving DecidableEq

/-- `credentials.CredentialManager`, given by what its `Verify` method returns: the
error, or `none` when the MAC is the one the shared secret yields. -/
structure CredentialManager where
  Verify : AuthenticatedCredential → Option String

/-- The type of `(*AuthenticatedCredential).Base64URLDecode`: the decoded credential,
or the error. -/
abbrev Decoder : Type := String → String → Except String AuthenticatedCredential

end credentials

/-! ## metrics/metrics.go -/

namespace metrics

open prometheus

/-- The package-level singleton. -/
structure Metrics where
  «namespace» : String
deriving DecidableEq

/-- The state of the package: the variable `mtx` (`none` is the nil pointer) and the
state of the epoch metrics, which `InitEpochMetrics` sets up. -/
structure Package (E : Type) where
  mtx : Option Metrics
  epoch : E

/-- A Go `map[string]M`, as an association list; `m[name]` reads the first entry. -/
abbrev GoMap (M : Type) : Type := List (String × M)

/-- The lookup `val, ok := m[name]`. -/
def GoMap.get {M : Type} (m : GoMap M) (name : String) : Option M :=
  List.lookup name m

/-- The assignment `m[name] = val`. -/
def GoMap.set {M : Type} (m : GoMap M) (name : String) (val : M) : GoMap M :=
  (name, val) :: List.filter (fun e => !(e.1 == name)) m

/-- `MetricsMap[M, O]`. The initializor acts on the state `S` of the library it
belongs to. -/
structure MetricsMap (M O S : Type) where
  m : GoMap M
  initializor : O → S → M × S

/-- `MetricsRegistry`. -/
structure MetricsRegistry where
  subsystem : String
  counters : MetricsMap Counter CounterOpts World
  gauges : MetricsMap Gauge GaugeOpts World
  histograms : MetricsMap Histogram HistogramOpts World

/-- `Init(namespace)`: the handler, the error, and the package afterwards.
`InitEpochMetrics` is declared in another file of the package; it is a parameter
here, which reads `mtx` and acts on the epoch metrics. -/
def Init {E : Type} (InitEpochMetrics : Option Metrics → E → E) (pkg : Package E)
    («namespace» : String) : (Option http.Handler × Option String) × Package E :=
  match pkg.mtx with
  | some _ => ((none, some "metrics.Init() should only be called once"), pkg)
  | none =>
    let mtx : Option Metrics := some { «namespace» := «namespace» }
    ((some http.Handler.promhttp, none),
     { mtx := mtx, epoch := InitEpochMetrics mtx pkg.epoch })

/-- `Deinit()`. -/
def Deinit {E : Type} (pkg : Package E) : Package E :=
  { pkg with mtx := none }

/-- `NewMetricsRegistry(subsystem)`. -/
def NewMetricsRegistry (subsystem : String) : MetricsRegistry :=
  { subsystem := subsystem
    counters := { m := [], initializor := promauto.NewCounter }
    gauges := { m := [], initializor := promauto.NewGauge }
    histograms := { m := [], initializor := promauto.NewHistogram } }

/-- `(*MetricsMap).value(name, opts)`: the metric, the map afterwards and the state of
the library afterwards. The probe under the read lock and the probe under the write
lock read the same map. -/
def MetricsMap.value {M O S : Type} (mm : MetricsMap M O S) (name : String) (opts : O)
    (s : S) : M × MetricsMap M O S × S :=
  match mm.m.get name with
  | some val => (val, mm, s)
  | none =>
    match mm.m.get name with
    | some val => (val, mm, s)
    | none =>
      ((mm.initializor opts s).1,
       { mm with m := mm.m.set name (mm.initializor opts s).1 },
       (mm.initializor opts s).2)

/-- `(*MetricsRegistry).Counter(name)`. The options are built first, which reads
`mtx.namespace`. -/
def MetricsRegistry.Counter (mtx : Option Metrics) (m : MetricsRegistry) (name : String)
    (w : World) : Go (Counter × MetricsRegistry × World) :=
  match mtx with
  | none => Except.error Panic.nilDereference
  | some x =>
    let r := m.counters.value name
      { Namespace := x.«namespace», Subsystem := m.subsystem, Name := name } w
    Except.ok (r.1, { m with counters := r.2.1 }, r.2.2)

/-- `(*MetricsRegistry).Gauge(name)`. -/
def MetricsRegistry.Gauge (mtx : Option Metrics) (m : MetricsRegistry) (name : String)
    (w : World) : Go (Gauge × MetricsRegistry × World) :=
  match mtx with
  | none => Except.error Panic.nilDereference
  | some x =>
    let r := m.gauges.value name
      { Namespace := x.«namespace», Subsystem := m.subsystem, Name := name } w
    Except.ok (r.1, { m with gauges := r.2.1 }, r.2.2)

/-- `(*MetricsRegistry).Histogram(name)`. -/
def MetricsRegistry.Histogram (mtx : Option Metrics) (m : MetricsRegistry) (name : String)
    (w : World) : Go (Histogram × MetricsRegistry × World) :=
  match mtx with
  | none => Except.error Panic.nilDereference
  | some x =>
    let r := m.histograms.value name
      { Namespace := x.«namespace», Subsystem := m.subsystem, Name := name } w
    Except.ok (r.1, { m with histograms := r.2.1 }, r.2.2)

end metrics

/-! ## router/authentication.go -/

namespace router

open credentials metrics prometheus

/-- The struct `auth`. The registry is the object that `metricsRegistry` points to. -/
structure auth where
  metricsRegistry : MetricsRegistry
  authValidityWindow : Int
  cm : CredentialManager

/-- The struct `authenticationError`. -/
structure authenticationError where
  msg : String
  gbpStatus : gbp.AuthenticationStatus
  httpStatus : Int
  grpcCode : codes.Code
deriving DecidableEq

/-- The method `Error()`. -/
def authenticationError.Error (a : authenticationError) : String :=
  "authentication failed, " ++ a.msg

/-- The method `GRPCError()`. -/
def authenticationError.GRPCError (a : authenticationError) : Option status.Status :=
  status.Error a.grpcCode a.Error

/-- `malformed(err)`. -/
def malformed (err : String) : authenticationError :=
  { msg := "malformed credentials: " ++ err
    httpStatus := http.StatusUnauthorized
    grpcCode := codes.Code.Unauthenticated
    gbpStatus := gbp.AuthenticationStatus.Unauthorized }

/-- `invalid(err)`. -/
def invalid (err : String) : authenticationError :=
  { msg := "invalid credentials: " ++ err
    httpStatus := http.StatusUnauthorized
    grpcCode := codes.Code.Unauthenticated
    gbpStatus := gbp.AuthenticationStatus.Unauthorized }

/-- `expired()`. -/
def expired : authenticationError :=
  { msg := "expired credentials"
    httpStatus := http.StatusUnauthorized
    grpcCode := codes.Code.PermissionDenied
    gbpStatus := gbp.AuthenticationStatus.Forbidden }

/-- What `authenticate` returns, and the `auth` and the library state it leaves. -/
abbrev AuthResult : Type :=
  (Option AuthenticatedCredential × Option authenticationError) × auth × World

/-- The statement `a.metricsRegistry.Counter(name).Inc()` followed by `return cred, err`. -/
def auth.count (mtx : Option Metrics) (a : auth) (w : World) (name : String)
    (cred : Option AuthenticatedCredential) (err : Option authenticationError) :
    Go AuthResult :=
  match a.metricsRegistry.Counter mtx name w with
  | Except.error p => Except.error p
  | Except.ok r =>
    Except.ok ((cred, err), { a with metricsRegistry := r.2.1 }, r.1.Inc r.2.2)

/-- `(*auth).authenticate(username, password)`. `Base64URLDecode` is the decoder of the
credentials package, `mtx` the package variable of `metrics`, `now` what `time.Now()`
returns, `w` the state of the Prometheus library. -/
def auth.authenticate (Base64URLDecode : Decoder) (mtx : Option Metrics) (now : time.Time)
    (a : auth) (w : World) (username password : String) : Go AuthResult :=
  if len username = 0 ∨ len password = 0 then
    a.count mtx w "malformed" none (some (malformed "username or password missing"))
  else
    match Base64URLDecode username password with
    | Except.error err => a.count mtx w "malformed" none (some (malformed err))
    | Except.ok ac =>
      match a.cm.Verify ac with
      | some err => a.count mtx w "invalid" none (some (invalid err))
      | none =>
        if (time.Unix ac.Credential.Timestamp 0).Before now
            && decide (now.Sub (time.Unix ac.Credential.Timestamp 0) > a.authValidityWindow) then
          a.count mtx w "expired" none (some expired)
        else
          a.count mtx w "valid" (some ac) none

/-- `initAuth(credentialManager, validityWindow)`. -/
def initAuth (credentialManager : CredentialManager) (validityWindow : Int) : auth :=
  { authValidityWindow := validityWindow
    cm := credentialManager
    metricsRegistry := NewMetricsRegistry "authentication" }

/-- A call of `authenticate`: what `time.Now()` returns during it, the username and the
password. -/
structure Call where
  now : time.Time
  username : String
  password : String

/-- A sequence of calls of `authenticate` on one `auth`, one after the other. -/
def auth.authenticateAll (Base64URLDecode : Decoder) (mtx : Option Metrics) :
    auth → World → List Call → Go (auth × World)
  | a, w, [] => Except.ok (a, w)
  | a, w, c :: cs =>
    match a.authenticate Base64URLDecode mtx c.now w c.username c.password with
    | Except.error p => Except.error p
    | Except.ok r => auth.authenticateAll Base64URLDecode mtx r.2.1 r.2.2 cs

/-- The value of the counter `name` of a registry: the number of `Inc` calls its
counter object has received, and zero as long as the counter has not been created. -/
def counterValue (m : MetricsRegistry) (w : World) (name : String) : Nat :=
  match m.counters.m.get name with
  | some c => c.read w
  | none => 0

/-- The counters of a registry are objects of the library, created by
`promauto.NewCounter`, and two names never share an object. -/
def Registered (m : MetricsRegistry) (w : World) : Prop :=
  m.counters.initializor = promauto.NewCounter ∧
  (∀ n c, m.counters.m.get n = some c → c.ref < w.counters.length) ∧
  (∀ n n' c, m.counters.m.get n = some c → m.counters.m.get n' = some c → n = n')

/-- The call incremented the counter `name` by one and left every other counter of the
registry as it was. -/
def IncrementsOnly (name : String) (m : MetricsRegistry) (w : World)
    (m' : MetricsRegistry) (w' : World) : Prop :=
  counterValue m' w' name = counterValue m w name + 1 ∧
  ∀ n, n ≠ name → counterValue m' w' n = counterValue m w n

/-- The call returned the outcome whose counter it incremented: a malformed error, an
invalid error, the expired error, or a credential. -/
def CountedOutcome (cred : Option AuthenticatedCredential) (err : Option authenticationError)
    (m : MetricsRegistry) (w : World) (m' : MetricsRegistry) (w' : World) : Prop :=
  ((∃ e, err = some (malformed e)) ∧ cred = none ∧ IncrementsOnly "malformed" m w m' w') ∨
  ((∃ e, err = some (invalid e)) ∧ cred = none ∧ IncrementsOnly "invalid" m w m' w') ∨
  (err = some expired ∧ cred = none ∧ IncrementsOnly "expired" m w m' w') ∨
  (err = none ∧ cred ≠ none ∧ IncrementsOnly "valid" m w m' w')

/-- The sum of the four outcome counters of a registry. -/
def outcomeTotal (m : MetricsRegistry) (w : World) : Nat :=
  counterValue m w "malformed" + counterValue m w "invalid"
    + counterValue m w "expired" + counterValue m w "valid"

/-! ### Fixtures after `router_test.go` -/

/-- The Prometheus library before any metric is created. -/
def testWorld : World := { counters := [], gauges := [], histograms := [] }

/-- The package variable after `metrics.Init("router_test")`. -/
def testMetrics : Metrics := { «namespace» := "router_test" }

/-- A pool credential issued at the Unix second `timestamp`. -/
def testCredential (timestamp : Int) : AuthenticatedCredential :=
  { Credential := { NodeId := [], Timestamp := timestamp,
                    OperatorType := pb.OperatorType.OT_ROCKETPOOL },
    Mac := [] }

/-- A decoder that decodes every pair to `testCredential timestamp`. -/
def testDecoder (timestamp : Int) : Decoder :=
  fun _ _ => Except.ok (testCredential timestamp)

/-- A credential manager whose `Verify` accepts every credential. -/
def acceptingManager : CredentialManager := { Verify := fun _ => none }

/-- A credential manager whose `Verify` rejects every credential. -/
def rejectingManager : CredentialManager := { Verify := fun _ => some "hmac did not match" }

/-- `time.Hour` in nanoseconds, the window `setup` configures. -/
def testWindow : Int := 3600000000000

end router

/-! ## The policy engine and the request rewriter

The file of the router that guards the two reward-critical endpoints is not among the
source files; only its tests are. This part follows sections 3, 4.2, 4.3 and 4.4 of the
specification. -/

namespace rewriter

/-- Modelled from the spec: the 20-byte address type of the missing router, compared on
its byte value. -/
structure Address where
  bytes : List Nat
deriving DecidableEq

/-- Modelled from the spec: the two hex digits of a byte, for the missing rendering of
an address in a denial message. -/
def hexByte (b : Nat) : List Char :=
  [Nat.digitChar (b / 16 % 16), Nat.digitChar (b % 16)]

/-- Modelled from the spec: the missing rendering of an address, 0x-prefixed hex. -/
def Address.hex (a : Address) : String :=
  "0x" ++ String.mk (a.bytes.flatMap hexByte)

/-- Modelled from the spec: the operator type of a credential, POOL or SOLO, as the
missing router reads it. -/
inductive OperatorType where
  | POOL
  | SOLO
deriving DecidableEq

/-- Modelled from the spec: the validator record of the missing Validator Index: index,
48-byte public key, 32-byte withdrawal credentials. -/
structure ValidatorRecord where
  index : Nat
  pubkey : List Nat
  withdrawal_credentials : List Nat
deriving DecidableEq

/-- Modelled from the spec: the pool info of the missing Pool Registry: the node operator
that owns a key and the expected fee recipient. -/
structure PoolInfo where
  node_operator : Address
  expected_fee_recipient : Address
deriving DecidableEq

/-- Modelled from the spec: a denial of the missing Policy Engine, an HTTP status and a
message. -/
structure Denial where
  status : Nat
  message : String
deriving DecidableEq

/-- Modelled from the spec: the fee-recipient-mismatch denial of the missing Policy
Engine, status 409 with the literal message of rule 4. -/
def mismatch (actual expected : Address) : Denial :=
  { status := 409
    message := "actual fee recipient " ++ actual.hex
      ++ " didn't match expected fee recipient " ++ expected.hex }

/-- Modelled from the spec: the missing Policy Engine, section 4.3, rules 1 to 5 in
order; `none` is allow. The spec gives no status or message for the denial of the
solo-branch withdrawal-prefix check, so `solo_denial` is a parameter. Under rule 2 a SOLO
credential that names a pool validator is denied also with the correct fee recipient, as
the spec says; `TestRouterPBPRPCheater` shows that the router lets such an item pass. -/
def policy (solo_denial : Denial) (operator_type : OperatorType)
    (validator_record : Option ValidatorRecord) (pool_info : Option PoolInfo)
    (proposed_fee_recipient rewards_pool_addr : Address) : Option Denial :=
  match validator_record with
  | none => some { status := 400, message := "unknown validator" }
  | some v =>
    match operator_type, pool_info with
    | OperatorType.SOLO, some info =>
      if proposed_fee_recipient = info.expected_fee_recipient
          ∨ proposed_fee_recipient = rewards_pool_addr then
        some solo_denial
      else
        some (mismatch proposed_fee_recipient info.expected_fee_recipient)
    | OperatorType.POOL, none =>
      some { status := 403
             message := "attempting to set fee recipient for a non-pool validator" }
    | OperatorType.POOL, some info =>
      if proposed_fee_recipient = info.expected_fee_recipient
          ∨ proposed_fee_recipient = rewards_pool_addr then
        none
      else
        some (mismatch proposed_fee_recipient info.expected_fee_recipient)
    | OperatorType.SOLO, none =>
      if v.withdrawal_credentials.head? = some 1 then none else some solo_denial

/-- Modelled from the spec: a proposal preparation item, the body element of
`prepare_beacon_proposer`, as the missing router decodes it. -/
structure PreparationItem where
  validator_index : Nat
  fee_recipient : Address
deriving DecidableEq

/-- Modelled from the spec: a validator registration item, the body element of
`register_validator`, as the missing router decodes it; `pubkey` is the text sent. -/
structure RegistrationItem where
  pubkey : String
  fee_recipient : Address
  gas_limit : Nat
  timestamp : Nat
  signature : String
deriving DecidableEq

/-- Modelled from the spec: the read interfaces of section 4.2 that the missing router
consults, the parser of a 48-byte public key, and the denial the spec leaves open. -/
structure Collaborators where
  lookup_by_index : Nat → Option ValidatorRecord
  lookup_by_pubkey : List Nat → Option ValidatorRecord
  pool_info : List Nat → Option PoolInfo
  rewards_pool_address : Address
  parse_pubkey : String → Except String (List Nat)
  solo_denial : Denial

/-- Modelled from the spec: what the missing request rewriter does with a request, it
forwards it upstream or answers with a denial. -/
inductive Outcome where
  | forward
  | deny (d : Denial)
deriving DecidableEq

/-- Modelled from the spec: the status the client sees from the missing rewriter, the
status of the upstream for a forwarded request and that of the denial otherwise. -/
def Outcome.status (upstream : Nat) : Outcome → Nat
  | Outcome.forward => upstream
  | Outcome.deny d => d.status

/-- Modelled from the spec: step 4 of section 4.4 for one item of endpoint A, in the
missing router: resolve the validator by index, then invoke the Policy Engine. -/
def decidePreparation (c : Collaborators) (operator_type : OperatorType)
    (item : PreparationItem) : Option Denial :=
  match c.lookup_by_index item.validator_index with
  | none =>
    some { status := 400
           message := "unknown validator index " ++ toString item.validator_index }
  | some v =>
    policy c.solo_denial operator_type (some v) (c.pool_info v.pubkey) item.fee_recipient
      c.rewards_pool_address

/-- Modelled from the spec: step 4 of section 4.4 for one item of endpoint B, in the
missing router: parse the public key, then invoke the Policy Engine. -/
def decideRegistration (c : Collaborators) (operator_type : OperatorType)
    (item : RegistrationItem) : Option Denial :=
  match c.parse_pubkey item.pubkey with
  | Except.error detail =>
    some { status := 400
           message := "error parsing pubkey from request body: " ++ detail }
  | Except.ok pk =>
    policy c.solo_denial operator_type (c.lookup_by_pubkey pk) (c.pool_info pk)
      item.fee_recipient c.rewards_pool_address

/-- Modelled from the spec: steps 4 and 5 of section 4.4 in the missing router: the items
are decided in order, the first denial aborts the request, and the request is forwarded
if all items pass. -/
def decideAll {α : Type} (decideItem : α → Option Denial) : List α → Outcome
  | [] => Outcome.forward
  | item :: items =>
    match decideItem item with
    | some d => Outcome.deny d
    | none => decideAll decideItem items

/-- Modelled from the spec: the missing guard of `POST /eth/v1/validator/prepare_beacon_proposer`
for an authenticated credential of the given operator type. -/
def prepare_beacon_proposer (c : Collaborators) (operator_type : OperatorType)
    (items : List PreparationItem) : Outcome :=
  decideAll (decidePreparation c operator_type) items

/-- Modelled from the spec: the missing guard of `POST /eth/v1/validator/register_validator`
for an authenticated credential of the given operator type. -/
def register_validator (c : Collaborators) (operator_type : OperatorType)
    (items : List RegistrationItem) : Outcome :=
  decideAll (decideRegistration c operator_type) items

/-- Modelled from the spec: the pool info of the validator a preparation item
references, when the index resolves and the validator is in the Pool Registry. -/
def preparationPool (c : Collaborators) (item : PreparationItem) : Option PoolInfo :=
  match c.lookup_by_index item.validator_index with
  | none => none
  | some v => c.pool_info v.pubkey

/-- Modelled from the spec: the pool info of the validator a registration item
references, when the key parses and resolves and the validator is in the Pool Registry. -/
def registrationPool (c : Collaborators) (item : RegistrationItem) : Option PoolInfo :=
  match c.parse_pubkey item.pubkey with
  | Except.error _ => none
  | Except.ok pk =>
    match c.lookup_by_pubkey pk with
    | none => none
    | some _ => c.pool_info pk

/-- Modelled from the spec: the fee recipients a POOL credential may propose for a pool
validator, its expected fee recipient and the rewards-pool address. -/
def Permitted (c : Collaborators) (info : PoolInfo) (fee_recipient : Address) : Prop :=
  fee_recipient = info.expected_fee_recipient ∨ fee_recipient = c.rewards_pool_address

/-! ### Fixtures after `router_test.go` -/

/-- Modelled from the spec: the fee recipient `0xabcf8e0d4e9587369b2301d0790347320302cc09`
of the tests, for the missing mock layers. -/
def cheaterAddress : Address :=
  { bytes := [171, 207, 142, 13, 78, 149, 135, 54, 155, 35, 1, 208, 121, 3, 71, 50, 3, 2,
              204, 9] }

/-- Modelled from the spec: the expected fee recipient of the pool validator with index
`i`, for the missing mock execution layer. -/
def distributor (i : Nat) : Address :=
  { bytes := List.replicate 19 0 ++ [i] }

/-- Modelled from the spec: the rewards-pool address of the missing mock execution
layer. -/
def rEth : Address :=
  { bytes := List.replicate 20 255 }

/-- Modelled from the spec: the seeded mock of section 8, whose package is missing: 100
validators, 50 of them in a pool of 5 nodes. Validator `i` has the one-byte key `[i]`; a
public key is sent as the one character whose code is that byte. -/
def mockLayers : Collaborators :=
  { lookup_by_index := fun i =>
      if i < 100 then
        some { index := i, pubkey := [i], withdrawal_credentials := 1 :: List.replicate 31 0 }
      else none
    lookup_by_pubkey := fun pk =>
      match pk with
      | [i] =>
        if i < 100 then
          some { index := i, pubkey := [i], withdrawal_credentials := 1 :: List.replicate 31 0 }
        else none
      | _ => none
    pool_info := fun pk =>
      match pk with
      | [i] =>
        if i < 50 then
          some { node_operator := { bytes := [i / 10] }, expected_fee_recipient := distributor i }
        else none
      | _ => none
    rewards_pool_address := rEth
    parse_pubkey := fun t =>
      match t.data with
      | [ch] => Except.ok [ch.toNat]
      | _ => Except.error ("Invalid validator public key hex string " ++ t)
    solo_denial := { status := 403, message := "withdrawal credentials" } }

/-- Modelled from the spec: a registration of the key sent as `pubkey`, with the gas
limit, timestamp and signature of the tests, for the missing router. -/
def registration (pubkey : String) (fee_recipient : Address) : RegistrationItem :=
  { pubkey := pubkey, fee_recipient := fee_recipient, gas_limit := 1, timestamp := 1,
    signature := "0x1b66ac1fb663c9bc59509846d6ec05345bd908eda73e670af888da41af171505" }

end rewriter

/-! ## admin/admin.go -/

namespace http

/-- The methods of `http.Server` that the repository calls, by name. -/
inductive Method where
  | Shutdown
  | Close
deriving DecidableEq

/-- The methods `Shutdown` and `Close` of `http.Server`, given by what they return and
what they do to the server, whose state is `S`; `C` is `context.Context`. -/
structure ServerMethods (C S : Type) where
  Shutdown : C → S → Option String × S
  Close : S → Option String × S

/-- The same methods on a server that also keeps the list of the calls it received. -/
def ServerMethods.recorded {C S : Type} (lib : ServerMethods C S) :
    ServerMethods C (S × List Method) :=
  { Shutdown := fun ctx s =>
      ((lib.Shutdown ctx s.1).1, ((lib.Shutdown ctx s.1).2, s.2 ++ [Method.Shutdown]))
    Close := fun s => ((lib.Close s.1).1, ((lib.Close s.1).2, s.2 ++ [Method.Close])) }

end http

namespace admin

open metrics

/-- The struct `AdminApi`: the embedded `http.Server`, whose state is `S`, and the
metrics handler. -/
structure AdminApi (S : Type) where
  Server : S
  metricsHandler : Option http.Handler

/-- `(*AdminApi).Init()`: the error, the api and the metrics package afterwards. -/
def AdminApi.Init {S E : Type} (InitEpochMetrics : Option Metrics → E → E)
    (a : AdminApi S) (pkg : Package E) : Option String × AdminApi S × Package E :=
  ((metrics.Init InitEpochMetrics pkg "rescue_proxy").1.2,
   { a with metricsHandler := (metrics.Init InitEpochMetrics pkg "rescue_proxy").1.1 },
   (metrics.Init InitEpochMetrics pkg "rescue_proxy").2)

/-- `(*AdminApi).Stop(ctx)`: the error and the api afterwards. -/
def AdminApi.Stop {C S : Type} (lib : http.ServerMethods C S) (a : AdminApi S) (ctx : C) :
    Option String × AdminApi S :=
  match (lib.Shutdown ctx a.Server).1 with
  | none => (none, { a with Server := (lib.Shutdown ctx a.Server).2 })
  | some _ =>
    ((lib.Close (lib.Shutdown ctx a.Server).2).1,
     { a with Server := (lib.Close (lib.Shutdown ctx a.Server).2).2 })

/-! ### Fixtures -/

/-- A server whose state is the number of connections in flight: `Shutdown` fails with
the error of the context while there are any, and `Close` drops them. -/
def busyServer : http.ServerMethods String Nat :=
  { Shutdown := fun ctx n => if n = 0 then (none, n) else (some ctx, n)
    Close := fun _ => (none, 0) }

end admin

/-! ## Invariants of a registry -/

namespace metrics

open prometheus

/-- Every counter of the registry is an object of the library that was built with the
namespace of `x`, the subsystem of the registry and the name it is stored under. -/
def Labelled (x : Metrics) (m : MetricsRegistry) (w : World) : Prop :=
  ∀ n c, m.counters.m.get n = some c →
    (w.counters[c.ref]?).map CounterCell.opts
      = some { Namespace := x.«namespace», Subsystem := m.subsystem, Name := n }

/-- The maps of the registry create their metrics with the constructors of `promauto`,
as in a registry that `NewMetricsRegistry` has built. -/
def Promauto (m : MetricsRegistry) : Prop :=
  m.counters.initializor = promauto.NewCounter ∧
  m.gauges.initializor = promauto.NewGauge ∧
  m.histograms.initializor = promauto.NewHistogram

end metrics

/-! ## The registration that `promauto` performs

The constructors of `promauto` register the metric they build with the default
registerer and panic when that fails. The definitions above give a constructor by what
it returns; the definitions of this part run the same code with that panic. -/

namespace model

/-- A character that may start a metric name: a letter, `_` or `:`. -/
def isNameStart (c : Char) : Bool := c.isAlpha || c == '_' || c == ':'

/-- A character that may follow in a metric name: a letter, a digit, `_` or `:`. -/
def isNameChar (c : Char) : Bool := c.isAlphanum || c == '_' || c == ':'

/-- `model.IsValidMetricName` of `prometheus/common` under its legacy validation scheme:
the name matches `[a-zA-Z_:][a-zA-Z0-9_:]*`. The empty name is invalid under every
scheme of the library. -/
def IsValidMetricName (n : String) : Bool :=
  match n.data with
  | [] => false
  | c :: cs => isNameStart c && cs.all isNameChar

end model

namespace prometheus

/-- `prometheus.BuildFQName(namespace, subsystem, name)`: the non-empty parts joined by
`_`, and the empty string for an empty name. -/
def BuildFQName («namespace» subsystem name : String) : String :=
  if name = "" then ""
  else if «namespace» ≠ "" ∧ subsystem ≠ "" then
    «namespace» ++ "_" ++ subsystem ++ "_" ++ name
  else if «namespace» ≠ "" then «namespace» ++ "_" ++ name
  else if subsystem ≠ "" then subsystem ++ "_" ++ name
  else name

/-- The fully-qualified names registered with the default registerer. -/
def World.registered (w : World) : List String :=
  w.counters.map (fun c => BuildFQName c.opts.Namespace c.opts.Subsystem c.opts.Name)
    ++ w.gauges.map (fun o => BuildFQName o.Namespace o.Subsystem o.Name)
    ++ w.histograms.map (fun o => BuildFQName o.Namespace o.Subsystem o.Name)

/-- `MustRegister` for a metric without labels built from these options: the
registration succeeds (`none`) when the fully-qualified name is a valid metric name that
is not registered yet, and panics otherwise. -/
def MustRegister («namespace» subsystem name : String) (w : World) : Option Panic :=
  if model.IsValidMetricName (BuildFQName «namespace» subsystem name) = true
      ∧ BuildFQName «namespace» subsystem name ∉ w.registered then none
  else some Panic.registration

end prometheus

namespace registering

open credentials metrics router

/-- `(*MetricsMap).value(name, opts)` with an initializor that may panic: `panics opts s`
is the panic of `initializor(opts)` in the state `s`, if it panics there. The panic
leaves the function before the map is written. -/
def value {M O S : Type} (panics : O → S → Option Panic) (mm : MetricsMap M O S)
    (name : String) (opts : O) (s : S) : Go (M × MetricsMap M O S × S) :=
  match mm.m.get name with
  | some val => Except.ok (val, mm, s)
  | none =>
    match mm.m.get name with
    | some val => Except.ok (val, mm, s)
    | none =>
      match panics opts s with
      | some p => Except.error p
      | none =>
        Except.ok ((mm.initializor opts s).1,
          { mm with m := mm.m.set name (mm.initializor opts s).1 },
          (mm.initializor opts s).2)

/-- `(*MetricsRegistry).Counter(name)` with the panic of `promauto.NewCounter`. -/
def Counter (mtx : Option Metrics) (m : MetricsRegistry) (name : String)
    (w : prometheus.World) : Go (prometheus.Counter × MetricsRegistry × prometheus.World) :=
  match mtx with
  | none => Except.error Panic.nilDereference
  | some x =>
    match value (fun (o : prometheus.CounterOpts) v =>
        prometheus.MustRegister o.Namespace o.Subsystem o.Name v) m.counters name
      { Namespace := x.«namespace», Subsystem := m.subsystem, Name := name } w with
    | Except.error p => Except.error p
    | Except.ok r => Except.ok (r.1, { m with counters := r.2.1 }, r.2.2)

/-- `(*MetricsRegistry).Gauge(name)` with the panic of `promauto.NewGauge`. -/
def Gauge (mtx : Option Metrics) (m : MetricsRegistry) (name : String)
    (w : prometheus.World) : Go (prometheus.Gauge × MetricsRegistry × prometheus.World) :=
  match mtx with
  | none => Except.error Panic.nilDereference
  | some x =>
    match value (fun (o : prometheus.GaugeOpts) v =>
        prometheus.MustRegister o.Namespace o.Subsystem o.Name v) m.gauges name
      { Namespace := x.«namespace», Subsystem := m.subsystem, Name := name } w with
    | Except.error p => Except.error p
    | Except.ok r => Except.ok (r.1, { m with gauges := r.2.1 }, r.2.2)

/-- `(*MetricsRegistry).Histogram(name)` with the panic of `promauto.NewHistogram`. -/
def Histogram (mtx : Option Metrics) (m : MetricsRegistry) (name : String)
    (w : prometheus.World) :
    Go (prometheus.Histogram × MetricsRegistry × prometheus.World) :=
  match mtx with
  | none => Except.error Panic.nilDereference
  | some x =>
    match value (fun (o : prometheus.HistogramOpts) v =>
        prometheus.MustRegister o.Namespace o.Subsystem o.Name v) m.histograms name
      { Namespace := x.«namespace», Subsystem := m.subsystem, Name := name } w with
    | Except.error p => Except.error p
    | Except.ok r => Except.ok (r.1, { m with histograms := r.2.1 }, r.2.2)

/-- The statement `a.metricsRegistry.Counter(name).Inc()` followed by `return cred, err`,
with the panic of the registration. -/
def count (mtx : Option Metrics) (a : auth) (w : prometheus.World) (name : String)
    (cred : Option AuthenticatedCredential) (err : Option authenticationError) :
    Go AuthResult :=
  match Counter mtx a.metricsRegistry name w with
  | Except.error p => Except.error p
  | Except.ok r =>
    Except.ok ((cred, err), { a with metricsRegistry := r.2.1 }, r.1.Inc r.2.2)

/-- `(*auth).authenticate(username, password)` with the panic of the registration. -/
def authenticate (Base64URLDecode : Decoder) (mtx : Option Metrics) (now : time.Time)
    (a : auth) (w : prometheus.World) (username password : String) : Go AuthResult :=
  if len username = 0 ∨ len password = 0 then
    count mtx a w "malformed" none (some (malformed "username or password missing"))
  else
    match Base64URLDecode username password with
    | Except.error err => count mtx a w "malformed" none (some (malformed err))
    | Except.ok ac =>
      match a.cm.Verify ac with
      | some err => count mtx a w "invalid" none (some (invalid err))
      | none =>
        if (time.Unix ac.Credential.Timestamp 0).Before now
            && decide (now.Sub (time.Unix ac.Credential.Timestamp 0) > a.authValidityWindow) then
          count mtx a w "expired" none (some expired)
        else
          count mtx a w "valid" (some ac) none

/-- A sequence of calls of `authenticate` on one `auth`, one after the other, with the
panic of the registration. -/
def authenticateAll (Base64URLDecode : Decoder) (mtx : Option Metrics) :
    auth → prometheus.World → List Call → Go (auth × prometheus.World)
  | a, w, [] => Except.ok (a, w)
  | a, w, c :: cs =>
    match authenticate Base64URLDecode mtx c.now a w c.username c.password with
    | Except.error p => Except.error p
    | Except.ok r => authenticateAll Base64URLDecode mtx r.2.1 r.2.2 cs

end registering

/-! # Theorems -/

/-! ## Maps and counter objects -/

namespace metrics

theorem GoMap.get_cons_self {M : Type} (m : GoMap M) (k : String) (v : M) :
    GoMap.get ((k, v) :: m) k = some v := by
  have hb : (k == k) = true := by simp
  simp only [GoMap.get, List.lookup_cons, hb]

theorem GoMap.get_cons_other {M : Type} (m : GoMap M) (k n : String) (v : M) (h : n ≠ k) :
    GoMap.get ((k, v) :: m) n = GoMap.get m n := by
  have hb : (n == k) = false := by simp [h]
  simp only [GoMap.get, List.lookup_cons, hb]

theorem GoMap.get_filter_ne {M : Type} (m : GoMap M) (name n : String) (h : n ≠ name) :
    GoMap.get (List.filter (fun e => !(e.1 == name)) m) n = GoMap.get m n := by
  induction m with
  | nil => rfl
  | cons e es ih =>
    obtain ⟨k, v⟩ := e
    by_cases hk : k = name
    · have hnk : n ≠ k := by rw [hk]; exact h
      have h1 : List.filter (fun e => !(e.1 == name)) ((k, v) :: es)
          = List.filter (fun e => !(e.1 == name)) es := by
        simp [List.filter_cons, hk]
      rw [h1, ih, GoMap.get_cons_other es k n v hnk]
    · have h1 : List.filter (fun e => !(e.1 == name)) ((k, v) :: es)
          = (k, v) :: List.filter (fun e => !(e.1 == name)) es := by
        simp [List.filter_cons, hk]
      rw [h1]
      by_cases hnk : n = k
      · rw [hnk, GoMap.get_cons_self, GoMap.get_cons_self]
      · rw [GoMap.get_cons_other _ k n v hnk, GoMap.get_cons_other _ k n v hnk, ih]

theorem GoMap.get_set_self {M : Type} (m : GoMap M) (name : String) (v : M) :
    (m.set name v).get name = some v := by
  unfold GoMap.set
  exact GoMap.get_cons_self _ name v

theorem GoMap.get_set_other {M : Type} (m : GoMap M) (name n : String) (v : M)
    (h : n ≠ name) : (m.set name v).get n = m.get n := by
  unfold GoMap.set
  rw [GoMap.get_cons_other _ name n v h]
  exact GoMap.get_filter_ne m name n h

theorem MetricsMap.value_found {M O S : Type} (mm : MetricsMap M O S) (name : String)
    (opts : O) (s : S) (v : M) (h : mm.m.get name = some v) :
    mm.value name opts s = (v, mm, s) := by
  unfold MetricsMap.value
  simp only [h]

theorem MetricsMap.value_created {M O S : Type} (mm : MetricsMap M O S) (name : String)
    (opts : O) (s : S) (h : mm.m.get name = none) :
    mm.value name opts s =
      ((mm.initializor opts s).1,
       { mm with m := mm.m.set name (mm.initializor opts s).1 },
       (mm.initializor opts s).2) := by
  unfold MetricsMap.value
  simp only [h]

end metrics

namespace prometheus

theorem incAt_length (i : Nat) (l : List CounterCell) : (incAt i l).length = l.length := by
  induction l generalizing i with
  | nil => cases i <;> rfl
  | cons c cs ih =>
    cases i with
    | zero => rfl
    | succ i => simp [incAt, ih]

theorem incAt_getElem?_ne (i j : Nat) (l : List CounterCell) (h : j ≠ i) :
    (incAt i l)[j]? = l[j]? := by
  induction l generalizing i j with
  | nil => cases i <;> rfl
  | cons c cs ih =>
    cases i with
    | zero =>
      cases j with
      | zero => exact absurd rfl h
      | succ j => simp [incAt]
    | succ i =>
      cases j with
      | zero => simp [incAt]
      | succ j =>
        have hji : j ≠ i := fun hh => h (by rw [hh])
        simp [incAt, ih i j hji]

theorem incAt_getElem?_self (i : Nat) (l : List CounterCell) :
    (incAt i l)[i]? = (l[i]?).map (fun c => { c with incs := c.incs + 1 }) := by
  induction l generalizing i with
  | nil => cases i <;> rfl
  | cons c cs ih =>
    cases i with
    | zero => simp [incAt]
    | succ i => simp [incAt, ih i]

theorem Counter.read_Inc_self (c : Counter) (w : World) (h : c.ref < w.counters.length) :
    c.read (c.Inc w) = c.read w + 1 := by
  unfold Counter.read Counter.Inc
  simp only [incAt_getElem?_self]
  rw [List.getElem?_eq_getElem h]
  rfl

theorem Counter.read_Inc_other (c d : Counter) (w : World) (h : d.ref ≠ c.ref) :
    d.read (c.Inc w) = d.read w := by
  unfold Counter.read Counter.Inc
  simp only [incAt_getElem?_ne _ _ _ h]

theorem Counter.read_NewCounter_old (d : Counter) (opts : CounterOpts) (w : World)
    (h : d.ref < w.counters.length) : d.read (promauto.NewCounter opts w).2 = d.read w := by
  unfold Counter.read promauto.NewCounter
  simp only [List.getElem?_append_left h]

theorem Counter.read_NewCounter_new (opts : CounterOpts) (w : World) :
    (promauto.NewCounter opts w).1.read (promauto.NewCounter opts w).2 = 0 := by
  unfold Counter.read promauto.NewCounter
  simp

end prometheus

/-! ## Properties of the credential verifier -/

namespace router

open credentials metrics prometheus

theorem count_returns (mtx : Option Metrics) (a : auth) (w : World) (name : String)
    (cred : Option AuthenticatedCredential) (err : Option authenticationError)
    (r : AuthResult) (h : a.count mtx w name cred err = Except.ok r) :
    r.1 = (cred, err) := by
  unfold auth.count at h
  cases hc : a.metricsRegistry.Counter mtx name w with
  | error p => rw [hc] at h; cases h
  | ok v => rw [hc] at h; cases h; rfl

theorem malformed_ne_expired (e : String) : malformed e ≠ expired := by
  intro h
  have h1 := congrArg authenticationError.grpcCode h
  simp [malformed, expired] at h1

theorem invalid_ne_expired (e : String) : invalid e ≠ expired := by
  intro h
  have h1 := congrArg authenticationError.grpcCode h
  simp [invalid, expired] at h1

theorem count_eq (x : Metrics) (a : auth) (w : World) (name : String)
    (cred : Option AuthenticatedCredential) (err : Option authenticationError) :
    a.count (some x) w name cred err =
      Except.ok ((cred, err),
        { a with metricsRegistry :=
            { a.metricsRegistry with counters :=
                (a.metricsRegistry.counters.value name
                  { Namespace := x.«namespace», Subsystem := a.metricsRegistry.subsystem,
                    Name := name } w).2.1 } },
        (a.metricsRegistry.counters.value name
          { Namespace := x.«namespace», Subsystem := a.metricsRegistry.subsystem,
            Name := name } w).1.Inc
          (a.metricsRegistry.counters.value name
            { Namespace := x.«namespace», Subsystem := a.metricsRegistry.subsystem,
              Name := name } w).2.2) := rfl

theorem authenticate_empty (Base64URLDecode : Decoder) (mtx : Option Metrics)
    (now : time.Time) (a : auth) (w : World) (username password : String)
    (h : len username = 0 ∨ len password = 0) :
    a.authenticate Base64URLDecode mtx now w username password =
      a.count mtx w "malformed" none (some (malformed "username or password missing")) := by
  unfold auth.authenticate
  rw [if_pos h]

theorem authenticate_undecodable (Base64URLDecode : Decoder) (mtx : Option Metrics)
    (now : time.Time) (a : auth) (w : World) (username password : String) (e : String)
    (h : ¬ (len username = 0 ∨ len password = 0))
    (hd : Base64URLDecode username password = Except.error e) :
    a.authenticate Base64URLDecode mtx now w username password =
      a.count mtx w "malformed" none (some (malformed e)) := by
  unfold auth.authenticate
  rw [if_neg h, hd]

theorem authenticate_unverified (Base64URLDecode : Decoder) (mtx : Option Metrics)
    (now : time.Time) (a : auth) (w : World) (username password : String)
    (ac : AuthenticatedCredential) (e : String)
    (h : ¬ (len username = 0 ∨ len password = 0))
    (hd : Base64URLDecode username password = Except.ok ac)
    (hv : a.cm.Verify ac = some e) :
    a.authenticate Base64URLDecode mtx now w username password =
      a.count mtx w "invalid" none (some (invalid e)) := by
  unfold auth.authenticate
  rw [if_neg h, hd]
  simp only [hv]

theorem authenticate_stale (Base64URLDecode : Decoder) (mtx : Option Metrics)
    (now : time.Time) (a : auth) (w : World) (username password : String)
    (ac : AuthenticatedCredential)
    (h : ¬ (len username = 0 ∨ len password = 0))
    (hd : Base64URLDecode username password = Except.ok ac)
    (hv : a.cm.Verify ac = none)
    (hx : (time.Unix ac.Credential.Timestamp 0).ns < now.ns
      ∧ now.Sub (time.Unix ac.Credential.Timestamp 0) > a.authValidityWindow) :
    a.authenticate Base64URLDecode mtx now w username password =
      a.count mtx w "expired" none (some expired) := by
  unfold auth.authenticate
  rw [if_neg h, hd]
  simp only [hv]
  rw [if_pos]
  simp only [time.Time.Before, Bool.and_eq_true, decide_eq_true_eq]
  exact hx

theorem authenticate_current (Base64URLDecode : Decoder) (mtx : Option Metrics)
    (now : time.Time) (a : auth) (w : World) (username password : String)
    (ac : AuthenticatedCredential)
    (h : ¬ (len username = 0 ∨ len password = 0))
    (hd : Base64URLDecode username password = Except.ok ac)
    (hv : a.cm.Verify ac = none)
    (hx : ¬ ((time.Unix ac.Credential.Timestamp 0).ns < now.ns
      ∧ now.Sub (time.Unix ac.Credential.Timestamp 0) > a.authValidityWindow)) :
    a.authenticate Base64URLDecode mtx now w username password =
      a.count mtx w "valid" (some ac) none := by
  unfold auth.authenticate
  rw [if_neg h, hd]
  simp only [hv]
  rw [if_neg]
  simp only [time.Time.Before, Bool.and_eq_true, decide_eq_true_eq]
  exact hx

/-- C1: whenever `authenticate` returns an error, that error is a malformed, an invalid
or the expired error, its HTTP status is 401, and the credential returned with it is
nil. -/
theorem authenticate_error_is_401 (Base64URLDecode : Decoder) (mtx : Option Metrics)
    (now : time.Time) (a : auth) (w : World) (username password : String)
    (cred : Option AuthenticatedCredential) (e : authenticationError) (a' : auth) (w' : World)
    (h : a.authenticate Base64URLDecode mtx now w username password
      = Except.ok ((cred, some e), a', w')) :
    e.httpStatus = 401 ∧ cred = none ∧
      ((∃ err, e = malformed err) ∨ (∃ err, e = invalid err) ∨ e = expired) := by
  unfold auth.authenticate at h
  split at h
  · have h1 := count_returns _ _ _ _ _ _ _ h
    simp only [Prod.mk.injEq, Option.some.injEq] at h1
    obtain ⟨hc, he⟩ := h1
    subst hc he
    exact ⟨rfl, rfl, Or.inl ⟨_, rfl⟩⟩
  · split at h
    · have h1 := count_returns _ _ _ _ _ _ _ h
      simp only [Prod.mk.injEq, Option.some.injEq] at h1
      obtain ⟨hc, he⟩ := h1
      subst hc he
      exact ⟨rfl, rfl, Or.inl ⟨_, rfl⟩⟩
    · split at h
      · have h1 := count_returns _ _ _ _ _ _ _ h
        simp only [Prod.mk.injEq, Option.some.injEq] at h1
        obtain ⟨hc, he⟩ := h1
        subst hc he
        exact ⟨rfl, rfl, Or.inr (Or.inl ⟨_, rfl⟩)⟩
      · split at h
        · have h1 := count_returns _ _ _ _ _ _ _ h
          simp only [Prod.mk.injEq, Option.some.injEq] at h1
          obtain ⟨hc, he⟩ := h1
          subst hc he
          exact ⟨rfl, rfl, Or.inr (Or.inr rfl)⟩
        · have h1 := count_returns _ _ _ _ _ _ _ h
          simp at h1

/-- C1, at the request without credentials: with the metrics package initialised, empty
username and password give the malformed error, whose status is 401. -/
theorem authenticate_error_is_401_witness :
    (initAuth { Verify := fun _ => none } 3600000000000).authenticate
        (fun _ _ => Except.error "illegal base64 data") (some { «namespace» := "rescue_proxy" })
        (time.Unix 1700000000 0) { counters := [], gauges := [], histograms := [] } "" ""
      = Except.ok ((none, some (malformed "username or password missing")),
          { initAuth { Verify := fun _ => none } 3600000000000 with
            metricsRegistry :=
              { NewMetricsRegistry "authentication" with
                counters :=
                  { m := [("malformed", { ref := 0 })], initializor := promauto.NewCounter } } },
          { counters := [{ opts := { Namespace := "rescue_proxy", Subsystem := "authentication",
                                      Name := "malformed" }, incs := 1 }],
            gauges := [], histograms := [] })
    ∧ (malformed "username or password missing").httpStatus = 401
    ∧ (none : Option AuthenticatedCredential) = none
    ∧ ((∃ err, malformed "username or password missing" = malformed err)
        ∨ (∃ err, malformed "username or password missing" = invalid err)
        ∨ malformed "username or password missing" = expired) :=
  ⟨rfl, authenticate_error_is_401 (fun _ _ => Except.error "illegal base64 data")
    (some { «namespace» := "rescue_proxy" }) (time.Unix 1700000000 0)
    (initAuth { Verify := fun _ => none } 3600000000000)
    { counters := [], gauges := [], histograms := [] } "" "" none
    (malformed "username or password missing") _ _ rfl⟩

/-- C7: `GRPCError` of a malformed or an invalid error is the status with code
`Unauthenticated`, that of the expired error the status with code `PermissionDenied`;
in each case the message is the string `Error()` returns, which is
"authentication failed, " followed by the message of the error. -/
theorem GRPCError_code_and_message :
    (∀ err : String, (malformed err).GRPCError
      = some { code := codes.Code.Unauthenticated, message := (malformed err).Error }) ∧
    (∀ err : String, (invalid err).GRPCError
      = some { code := codes.Code.Unauthenticated, message := (invalid err).Error }) ∧
    expired.GRPCError
      = some { code := codes.Code.PermissionDenied, message := expired.Error } ∧
    (∀ e : authenticationError, e.Error = "authentication failed, " ++ e.msg) ∧
    (∀ err : String, (malformed err).Error
      = "authentication failed, malformed credentials: " ++ err) ∧
    (∀ err : String, (invalid err).Error
      = "authentication failed, invalid credentials: " ++ err) ∧
    expired.Error = "authentication failed, expired credentials" := by
  refine ⟨fun _ => rfl, fun _ => rfl, rfl, fun _ => rfl, ?_, ?_, by decide⟩
  · intro err
    simp only [authenticationError.Error, malformed]
    rw [← String.append_assoc]
    rfl
  · intro err
    simp only [authenticationError.Error, invalid]
    rw [← String.append_assoc]
    rfl

theorem Registered_initAuth (cm : CredentialManager) (window : Int) (w : World) :
    Registered (initAuth cm window).metricsRegistry w := by
  refine ⟨rfl, ?_, ?_⟩
  · intro n c h
    cases h
  · intro n n' c h
    cases h

theorem count_increments (x : Metrics) (a : auth) (w : World) (name : String)
    (cred : Option AuthenticatedCredential) (err : Option authenticationError)
    (hreg : Registered a.metricsRegistry w) :
    ∃ a' w', a.count (some x) w name cred err = Except.ok ((cred, err), a', w') ∧
      Registered a'.metricsRegistry w' ∧
      IncrementsOnly name a.metricsRegistry w a'.metricsRegistry w' := by
  obtain ⟨hinit, hlt, hinj⟩ := hreg
  rw [count_eq]
  cases hg : a.metricsRegistry.counters.m.get name with
  | some c =>
    rw [MetricsMap.value_found _ _ _ _ c hg]
    refine ⟨_, _, rfl, ⟨hinit, ?_, hinj⟩, ?_, ?_⟩
    · intro n d hd
      have := hlt n d hd
      simpa [Counter.Inc, incAt_length] using this
    · show counterValue a.metricsRegistry (c.Inc w) name = counterValue a.metricsRegistry w name + 1
      unfold counterValue
      rw [hg]
      exact Counter.read_Inc_self c w (hlt name c hg)
    · intro n hn
      show counterValue a.metricsRegistry (c.Inc w) n = counterValue a.metricsRegistry w n
      unfold counterValue
      cases hgn : a.metricsRegistry.counters.m.get n with
      | none => rfl
      | some d =>
        have hne : d.ref ≠ c.ref := by
          intro hh
          have hdc : d = c := by
            cases d; cases c; cases hh; rfl
          rw [hdc] at hgn
          exact hn (hinj n name c hgn hg)
        exact Counter.read_Inc_other c d w hne
  | none =>
    rw [MetricsMap.value_created _ _ _ _ hg, hinit]
    refine ⟨_, _, rfl, ⟨rfl, ?_, ?_⟩, ?_, ?_⟩
    · intro n d hd
      have hlen : ((promauto.NewCounter
          { Namespace := x.«namespace», Subsystem := a.metricsRegistry.subsystem, Name := name }
          w).1.Inc (promauto.NewCounter
          { Namespace := x.«namespace», Subsystem := a.metricsRegistry.subsystem, Name := name }
          w).2).counters.length = w.counters.length + 1 := by
        simp [Counter.Inc, incAt_length, promauto.NewCounter]
      rw [hlen]
      by_cases hn : n = name
      · rw [hn] at hd
        have hd' : (a.metricsRegistry.counters.m.set name (promauto.NewCounter
          { Namespace := x.«namespace», Subsystem := a.metricsRegistry.subsystem, Name := name }
          w).1).get name = some d := hd
        rw [GoMap.get_set_self] at hd'
        cases hd'
        exact Nat.lt_succ_self _
      · have hd' : (a.metricsRegistry.counters.m.set name (promauto.NewCounter
          { Namespace := x.«namespace», Subsystem := a.metricsRegistry.subsystem, Name := name }
          w).1).get n = some d := hd
        rw [GoMap.get_set_other _ _ _ _ hn] at hd'
        exact Nat.lt_succ_of_lt (hlt n d hd')
    · intro n n' d hd hd'
      have h1 : (a.metricsRegistry.counters.m.set name (promauto.NewCounter
          { Namespace := x.«namespace», Subsystem := a.metricsRegistry.subsystem, Name := name }
          w).1).get n = some d := hd
      have h2 : (a.metricsRegistry.counters.m.set name (promauto.NewCounter
          { Namespace := x.«namespace», Subsystem := a.metricsRegistry.subsystem, Name := name }
          w).1).get n' = some d := hd'
      by_cases hn : n = name
      · by_cases hn' : n' = name
        · rw [hn, hn']
        · rw [hn, GoMap.get_set_self] at h1
          rw [GoMap.get_set_other _ _ _ _ hn'] at h2
          cases h1
          exact absurd (hlt n' _ h2) (lt_irrefl _)
      · by_cases hn' : n' = name
        · rw [hn', GoMap.get_set_self] at h2
          rw [GoMap.get_set_other _ _ _ _ hn] at h1
          cases h2
          exact absurd (hlt n _ h1) (lt_irrefl _)
        · rw [GoMap.get_set_other _ _ _ _ hn] at h1
          rw [GoMap.get_set_other _ _ _ _ hn'] at h2
          exact hinj n n' d h1 h2
    · unfold counterValue
      rw [hg]
      have h1 : (a.metricsRegistry.counters.m.set name (promauto.NewCounter
          { Namespace := x.«namespace», Subsystem := a.metricsRegistry.subsystem, Name := name }
          w).1).get name = some (promauto.NewCounter
          { Namespace := x.«namespace», Subsystem := a.metricsRegistry.subsystem, Name := name }
          w).1 := GoMap.get_set_self _ _ _
      simp only [h1]
      rw [Counter.read_Inc_self, Counter.read_NewCounter_new]
      simp [promauto.NewCounter]
    · intro n hn
      unfold counterValue
      have h1 : (a.metricsRegistry.counters.m.set name (promauto.NewCounter
          { Namespace := x.«namespace», Subsystem := a.metricsRegistry.subsystem, Name := name }
          w).1).get n = a.metricsRegistry.counters.m.get n := GoMap.get_set_other _ _ _ _ hn
      simp only [h1]
      cases hgn : a.metricsRegistry.counters.m.get n with
      | none => rfl
      | some d =>
        have hd := hlt n d hgn
        show d.read _ = d.read w
        rw [Counter.read_Inc_other, Counter.read_NewCounter_old d _ w hd]
        exact Nat.ne_of_lt hd

theorem authenticate_increments (Base64URLDecode : Decoder) (x : Metrics)
    (now : time.Time) (a : auth) (w : World) (username password : String)
    (hreg : Registered a.metricsRegistry w) :
    ∃ cred err a' w',
      a.authenticate Base64URLDecode (some x) now w username password
        = Except.ok ((cred, err), a', w') ∧
      Registered a'.metricsRegistry w' ∧
      CountedOutcome cred err a.metricsRegistry w a'.metricsRegistry w' := by
  by_cases h : len username = 0 ∨ len password = 0
  · obtain ⟨a', w', h1, h2, h3⟩ := count_increments x a w "malformed" none
      (some (malformed "username or password missing")) hreg
    exact ⟨_, _, a', w',
      (authenticate_empty Base64URLDecode (some x) now a w username password h).trans h1,
      h2, Or.inl ⟨⟨_, rfl⟩, rfl, h3⟩⟩
  · cases hd : Base64URLDecode username password with
    | error e =>
      obtain ⟨a', w', h1, h2, h3⟩ := count_increments x a w "malformed" none
        (some (malformed e)) hreg
      exact ⟨_, _, a', w',
        (authenticate_undecodable Base64URLDecode (some x) now a w username password e
          h hd).trans h1,
        h2, Or.inl ⟨⟨_, rfl⟩, rfl, h3⟩⟩
    | ok ac =>
      cases hv : a.cm.Verify ac with
      | some e =>
        obtain ⟨a', w', h1, h2, h3⟩ := count_increments x a w "invalid" none
          (some (invalid e)) hreg
        exact ⟨_, _, a', w',
          (authenticate_unverified Base64URLDecode (some x) now a w username password ac e
            h hd hv).trans h1,
          h2, Or.inr (Or.inl ⟨⟨_, rfl⟩, rfl, h3⟩)⟩
      | none =>
        by_cases hx : (time.Unix ac.Credential.Timestamp 0).ns < now.ns
            ∧ now.Sub (time.Unix ac.Credential.Timestamp 0) > a.authValidityWindow
        · obtain ⟨a', w', h1, h2, h3⟩ := count_increments x a w "expired" none
            (some expired) hreg
          exact ⟨_, _, a', w',
            (authenticate_stale Base64URLDecode (some x) now a w username password ac
              h hd hv hx).trans h1,
            h2, Or.inr (Or.inr (Or.inl ⟨rfl, rfl, h3⟩))⟩
        · obtain ⟨a', w', h1, h2, h3⟩ := count_increments x a w "valid" (some ac) none hreg
          exact ⟨_, _, a', w',
            (authenticate_current Base64URLDecode (some x) now a w username password ac
              h hd hv hx).trans h1,
            h2, Or.inr (Or.inr (Or.inr ⟨rfl, by simp, h3⟩))⟩

theorem outcomeTotal_step (cred : Option AuthenticatedCredential)
    (err : Option authenticationError) (m : MetricsRegistry) (w : World)
    (m' : MetricsRegistry) (w' : World) (h : CountedOutcome cred err m w m' w') :
    outcomeTotal m' w' = outcomeTotal m w + 1 := by
  unfold outcomeTotal
  rcases h with ⟨_, _, h1, h2⟩ | ⟨_, _, h1, h2⟩ | ⟨_, _, h1, h2⟩ | ⟨_, _, h1, h2⟩
  · rw [h1, h2 "invalid" (by decide), h2 "expired" (by decide), h2 "valid" (by decide)]
    omega
  · rw [h1, h2 "malformed" (by decide), h2 "expired" (by decide), h2 "valid" (by decide)]
    omega
  · rw [h1, h2 "malformed" (by decide), h2 "invalid" (by decide), h2 "valid" (by decide)]
    omega
  · rw [h1, h2 "malformed" (by decide), h2 "invalid" (by decide), h2 "expired" (by decide)]
    omega

theorem authenticateAll_total (Base64URLDecode : Decoder) (x : Metrics) (calls : List Call) :
    ∀ (a : auth) (w : World), Registered a.metricsRegistry w →
      ∃ a' w', a.authenticateAll Base64URLDecode (some x) w calls = Except.ok (a', w') ∧
        Registered a'.metricsRegistry w' ∧
        outcomeTotal a'.metricsRegistry w' = outcomeTotal a.metricsRegistry w + calls.length := by
  induction calls with
  | nil =>
    intro a w hreg
    exact ⟨a, w, rfl, hreg, rfl⟩
  | cons c cs ih =>
    intro a w hreg
    obtain ⟨cred, err, a1, w1, h1, h2, h3⟩ :=
      authenticate_increments Base64URLDecode x c.now a w c.username c.password hreg
    obtain ⟨a2, w2, h4, h5, h6⟩ := ih a1 w1 h2
    refine ⟨a2, w2, ?_, h5, ?_⟩
    · unfold auth.authenticateAll
      rw [h1]
      exact h4
    · rw [h6, outcomeTotal_step cred err _ _ _ _ h3, List.length_cons]
      omega

end router

/-! ## Properties of the metrics package -/

namespace metrics

open prometheus

/-- C9: `Init` succeeds exactly when the package is uninitialised. While `mtx` is set,
`Init` returns a nil handler and an error and leaves the package, the stored namespace
included, as it was, so a second `Init` after a first one fails; after `Deinit`, `Init`
returns a handler and a nil error and stores the new namespace. -/
theorem Init_only_when_uninitialised {E : Type} (InitEpochMetrics : Option Metrics → E → E)
    (pkg : Package E) (first second : String) :
    ((Init InitEpochMetrics pkg second).1.2 = none ↔ pkg.mtx = none) ∧
    (∀ x : Metrics, pkg.mtx = some x →
      (Init InitEpochMetrics pkg second).1.1 = none ∧
      (Init InitEpochMetrics pkg second).1.2 ≠ none ∧
      (Init InitEpochMetrics pkg second).2 = pkg ∧
      (Init InitEpochMetrics pkg second).2.mtx = some x) ∧
    (pkg.mtx = none →
      (Init InitEpochMetrics pkg first).1.1 ≠ none ∧
      (Init InitEpochMetrics pkg first).1.2 = none ∧
      (Init InitEpochMetrics pkg first).2.mtx = some { «namespace» := first } ∧
      (Init InitEpochMetrics (Init InitEpochMetrics pkg first).2 second).1
        = (none, some "metrics.Init() should only be called once") ∧
      (Init InitEpochMetrics (Init InitEpochMetrics pkg first).2 second).2.mtx
        = some { «namespace» := first }) ∧
    ((Init InitEpochMetrics (Deinit pkg) second).1 = (some http.Handler.promhttp, none) ∧
      (Init InitEpochMetrics (Deinit pkg) second).2.mtx = some { «namespace» := second }) := by
  refine ⟨?_, ?_, ?_, ?_⟩
  · cases h : pkg.mtx with
    | none => simp [Init, h]
    | some x => simp [Init, h]
  · intro x h
    simp [Init, h]
  · intro h
    simp [Init, h]
  · simp [Init, Deinit]

theorem MetricsMap.value_initializor {M O S : Type} (mm : MetricsMap M O S) (name : String)
    (opts : O) (s : S) : (mm.value name opts s).2.1.initializor = mm.initializor := by
  cases h : mm.m.get name with
  | some v => rw [MetricsMap.value_found mm name opts s v h]
  | none => rw [MetricsMap.value_created mm name opts s h]

theorem MetricsMap.value_get_self {M O S : Type} (mm : MetricsMap M O S) (name : String)
    (opts : O) (s : S) :
    (mm.value name opts s).2.1.m.get name = some (mm.value name opts s).1 := by
  cases h : mm.m.get name with
  | some v =>
    rw [MetricsMap.value_found mm name opts s v h]
    exact h
  | none =>
    rw [MetricsMap.value_created mm name opts s h]
    exact GoMap.get_set_self _ _ _

theorem MetricsMap.value_get_other {M O S : Type} (mm : MetricsMap M O S) (name n : String)
    (opts : O) (s : S) (hn : n ≠ name) :
    (mm.value name opts s).2.1.m.get n = mm.m.get n := by
  cases h : mm.m.get name with
  | some v => rw [MetricsMap.value_found mm name opts s v h]
  | none =>
    rw [MetricsMap.value_created mm name opts s h]
    exact GoMap.get_set_other _ _ _ _ hn

theorem MetricsMap.value_keeps {M O S : Type} (mm : MetricsMap M O S) (name n : String)
    (opts : O) (s : S) (v : M) (hv : mm.m.get n = some v) :
    (mm.value name opts s).2.1.m.get n = some v := by
  by_cases hn : n = name
  · rw [hn] at hv
    rw [hn, MetricsMap.value_found mm name opts s v hv]
    exact hv
  · rw [MetricsMap.value_get_other mm name n opts s hn]
    exact hv

end metrics

/-! ## Properties of the policy engine and the request rewriter -/

namespace rewriter

theorem decideAll_forward_iff {α : Type} (decideItem : α → Option Denial) (items : List α) :
    decideAll decideItem items = Outcome.forward ↔ ∀ it, it ∈ items → decideItem it = none := by
  induction items with
  | nil => simp [decideAll]
  | cons item rest ih =>
    unfold decideAll
    cases h : decideItem item with
    | some d =>
      simp only [List.mem_cons]
      constructor
      · intro hh
        cases hh
      · intro hh
        have := hh item (Or.inl rfl)
        rw [h] at this
        cases this
    | none =>
      simp only [List.mem_cons]
      rw [ih]
      constructor
      · intro hh it hit
        rcases hit with hit | hit
        · rw [hit]
          exact h
        · exact hh it hit
      · intro hh it hit
        exact hh it (Or.inr hit)

theorem decideAll_first {α : Type} (decideItem : α → Option Denial) (before : List α)
    (bad : α) (after : List α) (d : Denial)
    (hbefore : ∀ it, it ∈ before → decideItem it = none) (hbad : decideItem bad = some d) :
    decideAll decideItem (before ++ bad :: after) = Outcome.deny d := by
  induction before with
  | nil =>
    simp only [List.nil_append, decideAll, hbad]
  | cons item rest ih =>
    have h1 : decideItem item = none := hbefore item (List.mem_cons_self _ _)
    simp only [List.cons_append, decideAll, h1]
    exact ih (fun it hit => hbefore it (List.mem_cons_of_mem _ hit))

theorem decideAll_denied {α : Type} (decideItem : α → Option Denial) (items : List α)
    (h : ∃ it, it ∈ items ∧ decideItem it ≠ none) :
    ∃ before bad after d, items = before ++ bad :: after ∧
      (∀ it, it ∈ before → decideItem it = none) ∧ decideItem bad = some d ∧
      decideAll decideItem items = Outcome.deny d := by
  induction items with
  | nil =>
    obtain ⟨it, hit, _⟩ := h
    cases hit
  | cons item rest ih =>
    cases hd : decideItem item with
    | some d =>
      refine ⟨[], item, rest, d, rfl, ?_, hd, ?_⟩
      · intro it hit
        cases hit
      · simp only [decideAll, hd]
    | none =>
      have h' : ∃ it, it ∈ rest ∧ decideItem it ≠ none := by
        obtain ⟨it, hit, hne⟩ := h
        rcases List.mem_cons.mp hit with hit | hit
        · rw [hit] at hne
          exact absurd hd hne
        · exact ⟨it, hit, hne⟩
      obtain ⟨before, bad, after, d, h1, h2, h3, h4⟩ := ih h'
      refine ⟨item :: before, bad, after, d, ?_, ?_, h3, ?_⟩
      · rw [h1]
        rfl
      · intro it hit
        rcases List.mem_cons.mp hit with hit | hit
        · rw [hit]
          exact hd
        · exact h2 it hit
      · simp only [decideAll, hd]
        exact h4

theorem decidePreparation_pool (c : Collaborators) (item : PreparationItem) (info : PoolInfo)
    (h : preparationPool c item = some info) :
    decidePreparation c OperatorType.POOL item =
      if item.fee_recipient = info.expected_fee_recipient
          ∨ item.fee_recipient = c.rewards_pool_address then none
      else some (mismatch item.fee_recipient info.expected_fee_recipient) := by
  unfold preparationPool at h
  unfold decidePreparation
  cases hv : c.lookup_by_index item.validator_index with
  | none =>
    rw [hv] at h
    cases h
  | some v =>
    rw [hv] at h
    have h' : c.pool_info v.pubkey = some info := h
    simp only [policy, h']

theorem decideRegistration_pool (c : Collaborators) (item : RegistrationItem) (info : PoolInfo)
    (h : registrationPool c item = some info) :
    decideRegistration c OperatorType.POOL item =
      if item.fee_recipient = info.expected_fee_recipient
          ∨ item.fee_recipient = c.rewards_pool_address then none
      else some (mismatch item.fee_recipient info.expected_fee_recipient) := by
  unfold registrationPool at h
  unfold decideRegistration
  cases hk : c.parse_pubkey item.pubkey with
  | error e =>
    rw [hk] at h
    cases h
  | ok pk =>
    rw [hk] at h
    have h' : (match c.lookup_by_pubkey pk with
      | none => none
      | some _ => c.pool_info pk) = some info := h
    cases hv : c.lookup_by_pubkey pk with
    | none =>
      rw [hv] at h'
      cases h'
    | some v =>
      rw [hv] at h'
      have h2 : c.pool_info pk = some info := h'
      simp only [policy, hv, h2]

theorem pool_decisions {α : Type} (c : Collaborators) (decideItem : α → Option Denial)
    (pool : α → Option PoolInfo) (recipient : α → Address) (items : List α)
    (hf : ∀ it info, pool it = some info →
      decideItem it =
        if recipient it = info.expected_fee_recipient
            ∨ recipient it = c.rewards_pool_address then none
        else some (mismatch (recipient it) info.expected_fee_recipient))
    (hknown : ∀ it, it ∈ items → pool it ≠ none) :
    (decideAll decideItem items = Outcome.forward ↔
      ∀ it, it ∈ items → ∃ info, pool it = some info ∧ Permitted c info (recipient it)) ∧
    (∀ d, decideAll decideItem items = Outcome.deny d →
      d.status = 409 ∧ ∃ it, it ∈ items ∧ ∃ info, pool it = some info ∧
        ¬ Permitted c info (recipient it) ∧
        d.message = "actual fee recipient " ++ (recipient it).hex
          ++ " didn't match expected fee recipient " ++ info.expected_fee_recipient.hex) := by
  have hitem : ∀ it, it ∈ items → ∃ info, pool it = some info ∧
      (decideItem it = none ↔ Permitted c info (recipient it)) ∧
      (∀ d, decideItem it = some d → ¬ Permitted c info (recipient it) ∧
        d = mismatch (recipient it) info.expected_fee_recipient) := by
    intro it hit
    cases hpool : pool it with
    | none => exact absurd hpool (hknown it hit)
    | some info =>
      refine ⟨info, rfl, ?_, ?_⟩
      · rw [hf it info hpool]
        unfold Permitted
        split_ifs with hc
        · exact ⟨fun _ => hc, fun _ => rfl⟩
        · constructor
          · intro hh
            cases hh
          · intro hh
            exact absurd hh hc
      · intro d hd
        rw [hf it info hpool] at hd
        unfold Permitted
        split_ifs at hd with hc
        exact ⟨hc, (Option.some.inj hd).symm⟩
  constructor
  · rw [decideAll_forward_iff]
    constructor
    · intro hall it hit
      obtain ⟨info, h1, h2, _⟩ := hitem it hit
      exact ⟨info, h1, h2.mp (hall it hit)⟩
    · intro hall it hit
      obtain ⟨info, h1, h2, _⟩ := hitem it hit
      obtain ⟨info', h1', h2'⟩ := hall it hit
      rw [h1] at h1'
      cases h1'
      exact h2.mpr h2'
  · intro d hd
    have hex : ∃ it, it ∈ items ∧ decideItem it ≠ none := by
      by_contra hcon
      have hall : ∀ it, it ∈ items → decideItem it = none := by
        intro it hit
        by_contra hne
        exact hcon ⟨it, hit, hne⟩
      rw [(decideAll_forward_iff decideItem items).mpr hall] at hd
      cases hd
    obtain ⟨before, bad, after, d', h1, _, h3, h4⟩ := decideAll_denied decideItem items hex
    rw [h4] at hd
    have hdd : d' = d := Outcome.deny.inj hd
    rw [hdd] at h3
    have hmem : bad ∈ items := by
      rw [h1]
      exact List.mem_append_right _ (List.mem_cons_self _ _)
    obtain ⟨info, k1, _, k3⟩ := hitem bad hmem
    obtain ⟨k4, k5⟩ := k3 d h3
    refine ⟨?_, bad, hmem, info, k1, k4, ?_⟩
    · rw [k5]
      rfl
    · rw [k5]
      rfl

/-- C5: for a POOL credential and a `prepare_beacon_proposer` or `register_validator`
request whose items all reference known pool validators, the request is forwarded, and
so answered with the status 200 of the upstream, exactly when the fee recipient of every
item is the expected fee recipient of its validator or the rewards-pool address;
otherwise the answer is 409 with the message "actual fee recipient <addr> didn't match
expected fee recipient <expected>" for an item with another fee recipient. -/
theorem pool_request_forwarded_iff (c : Collaborators) (preparations : List PreparationItem)
    (registrations : List RegistrationItem)
    (hp : ∀ it, it ∈ preparations → preparationPool c it ≠ none)
    (hr : ∀ it, it ∈ registrations → registrationPool c it ≠ none) :
    ((prepare_beacon_proposer c OperatorType.POOL preparations = Outcome.forward ↔
        ∀ it, it ∈ preparations →
          ∃ info, preparationPool c it = some info ∧ Permitted c info it.fee_recipient) ∧
      ((prepare_beacon_proposer c OperatorType.POOL preparations).status 200 = 200 ↔
        prepare_beacon_proposer c OperatorType.POOL preparations = Outcome.forward) ∧
      (∀ d, prepare_beacon_proposer c OperatorType.POOL preparations = Outcome.deny d →
        d.status = 409 ∧ ∃ it, it ∈ preparations ∧ ∃ info, preparationPool c it = some info ∧
          ¬ Permitted c info it.fee_recipient ∧
          d.message = "actual fee recipient " ++ it.fee_recipient.hex
            ++ " didn't match expected fee recipient " ++ info.expected_fee_recipient.hex)) ∧
    ((register_validator c OperatorType.POOL registrations = Outcome.forward ↔
        ∀ it, it ∈ registrations →
          ∃ info, registrationPool c it = some info ∧ Permitted c info it.fee_recipient) ∧
      ((register_validator c OperatorType.POOL registrations).status 200 = 200 ↔
        register_validator c OperatorType.POOL registrations = Outcome.forward) ∧
      (∀ d, register_validator c OperatorType.POOL registrations = Outcome.deny d →
        d.status = 409 ∧ ∃ it, it ∈ registrations ∧ ∃ info, registrationPool c it = some info ∧
          ¬ Permitted c info it.fee_recipient ∧
          d.message = "actual fee recipient " ++ it.fee_recipient.hex
            ++ " didn't match expected fee recipient " ++ info.expected_fee_recipient.hex)) := by
  obtain ⟨p1, p2⟩ := pool_decisions c (decidePreparation c OperatorType.POOL)
    (preparationPool c) (fun it => it.fee_recipient) preparations
    (fun it info h => decidePreparation_pool c it info h) hp
  obtain ⟨r1, r2⟩ := pool_decisions c (decideRegistration c OperatorType.POOL)
    (registrationPool c) (fun it => it.fee_recipient) registrations
    (fun it info h => decideRegistration_pool c it info h) hr
  refine ⟨⟨p1, ?_, p2⟩, ⟨r1, ?_, r2⟩⟩
  · cases ho : prepare_beacon_proposer c OperatorType.POOL preparations with
    | forward => exact ⟨fun _ => rfl, fun _ => rfl⟩
    | deny d =>
      have hs := (p2 d ho).1
      simp [Outcome.status, hs]
  · cases ho : register_validator c OperatorType.POOL registrations with
    | forward => exact ⟨fun _ => rfl, fun _ => rfl⟩
    | deny d =>
      have hs := (r2 d ho).1
      simp [Outcome.status, hs]

/-- C5, at the requests of `TestRouterPBPRP` and `TestRouterRVRP`: one item with the
expected fee recipient and one with the rewards-pool address, for two pool validators,
are forwarded and answered with 200. -/
theorem pool_request_forwarded_iff_witness :
    (∀ it, it ∈ [({ validator_index := 48, fee_recipient := distributor 48 } : PreparationItem),
        { validator_index := 49, fee_recipient := rEth }] →
      preparationPool mockLayers it ≠ none) ∧
    (∀ it, it ∈ [registration "0" (distributor 48), registration "1" rEth] →
      registrationPool mockLayers it ≠ none) ∧
    (prepare_beacon_proposer mockLayers OperatorType.POOL
      [{ validator_index := 48, fee_recipient := distributor 48 },
        { validator_index := 49, fee_recipient := rEth }]).status 200 = 200 ∧
    (register_validator mockLayers OperatorType.POOL
      [registration "0" (distributor 48), registration "1" rEth]).status 200 = 200 := by
  have hp : ∀ it, it ∈ [({ validator_index := 48, fee_recipient := distributor 48 } :
        PreparationItem), { validator_index := 49, fee_recipient := rEth }] →
      preparationPool mockLayers it ≠ none := by
    decide
  have hr : ∀ it, it ∈ [registration "0" (distributor 48), registration "1" rEth] →
      registrationPool mockLayers it ≠ none := by
    decide
  exact ⟨hp, hr,
    (pool_request_forwarded_iff mockLayers _ _ hp hr).1.2.1.mpr (by decide),
    (pool_request_forwarded_iff mockLayers _ _ hp hr).2.2.1.mpr (by decide)⟩

/-- C6: the decision on a request is atomic. When the items before an item are all
allowed and that item is denied, the request is answered with the denial of that item,
whatever follows it; and a request with any item that would be denied is answered with
a denial and is not forwarded. This holds for both reward-critical endpoints and every
operator type. -/
theorem first_denial_aborts (c : Collaborators) (operator_type : OperatorType)
    (before : List PreparationItem) (bad : PreparationItem) (after : List PreparationItem)
    (d : Denial)
    (regBefore : List RegistrationItem) (regBad : RegistrationItem)
    (regAfter : List RegistrationItem) (regDenial : Denial)
    (h1 : ∀ it, it ∈ before → decidePreparation c operator_type it = none)
    (h2 : decidePreparation c operator_type bad = some d)
    (h3 : ∀ it, it ∈ regBefore → decideRegistration c operator_type it = none)
    (h4 : decideRegistration c operator_type regBad = some regDenial) :
    prepare_beacon_proposer c operator_type (before ++ bad :: after) = Outcome.deny d ∧
    (∀ upstream, (prepare_beacon_proposer c operator_type (before ++ bad :: after)).status
      upstream = d.status) ∧
    register_validator c operator_type (regBefore ++ regBad :: regAfter)
      = Outcome.deny regDenial ∧
    (∀ upstream, (register_validator c operator_type
      (regBefore ++ regBad :: regAfter)).status upstream = regDenial.status) ∧
    (∀ items : List PreparationItem,
      (∃ it, it ∈ items ∧ decidePreparation c operator_type it ≠ none) →
      prepare_beacon_proposer c operator_type items ≠ Outcome.forward ∧
      ∃ first rest denial, items = first ++ rest ∧
        (∀ it, it ∈ first → decidePreparation c operator_type it = none) ∧
        (rest.head?.map (decidePreparation c operator_type)) = some (some denial) ∧
        prepare_beacon_proposer c operator_type items = Outcome.deny denial) ∧
    (∀ items : List RegistrationItem,
      (∃ it, it ∈ items ∧ decideRegistration c operator_type it ≠ none) →
      register_validator c operator_type items ≠ Outcome.forward ∧
      ∃ first rest denial, items = first ++ rest ∧
        (∀ it, it ∈ first → decideRegistration c operator_type it = none) ∧
        (rest.head?.map (decideRegistration c operator_type)) = some (some denial) ∧
        register_validator c operator_type items = Outcome.deny denial) := by
  have hp := decideAll_first (decidePreparation c operator_type) before bad after d h1 h2
  have hr := decideAll_first (decideRegistration c operator_type) regBefore regBad regAfter
    regDenial h3 h4
  refine ⟨hp, ?_, hr, ?_, ?_, ?_⟩
  · intro upstream
    unfold prepare_beacon_proposer
    rw [hp]
    rfl
  · intro upstream
    unfold register_validator
    rw [hr]
    rfl
  · intro items hex
    obtain ⟨first, item, rest, denial, k1, k2, k3, k4⟩ :=
      decideAll_denied (decidePreparation c operator_type) items hex
    refine ⟨?_, first, item :: rest, denial, k1, k2, ?_, k4⟩
    · unfold prepare_beacon_proposer
      rw [k4]
      intro hh
      cases hh
    · simp [k3]
  · intro items hex
    obtain ⟨first, item, rest, denial, k1, k2, k3, k4⟩ :=
      decideAll_denied (decideRegistration c operator_type) items hex
    refine ⟨?_, first, item :: rest, denial, k1, k2, ?_, k4⟩
    · unfold register_validator
      rw [k4]
      intro hh
      cases hh
    · simp [k3]

/-- C6, at the requests of `TestRouterCheater`: a POOL credential, a first item with the
expected fee recipient and a second with the fee recipient of the tests, give 409. -/
theorem first_denial_aborts_witness :
    (∀ it, it ∈ [({ validator_index := 48, fee_recipient := distributor 48 } : PreparationItem)] →
      decidePreparation mockLayers OperatorType.POOL it = none) ∧
    decidePreparation mockLayers OperatorType.POOL
        { validator_index := 49, fee_recipient := cheaterAddress }
      = some (mismatch cheaterAddress (distributor 49)) ∧
    (∀ it, it ∈ [registration "0" (distributor 48)] →
      decideRegistration mockLayers OperatorType.POOL it = none) ∧
    decideRegistration mockLayers OperatorType.POOL (registration "1" cheaterAddress)
      = some (mismatch cheaterAddress (distributor 49)) ∧
    prepare_beacon_proposer mockLayers OperatorType.POOL
        ([{ validator_index := 48, fee_recipient := distributor 48 }]
          ++ { validator_index := 49, fee_recipient := cheaterAddress } :: [])
      = Outcome.deny (mismatch cheaterAddress (distributor 49)) ∧
    register_validator mockLayers OperatorType.POOL
        ([registration "0" (distributor 48)] ++ registration "1" cheaterAddress :: [])
      = Outcome.deny (mismatch cheaterAddress (distributor 49)) ∧
    (mismatch cheaterAddress (distributor 49)).status = 409 ∧
    (mismatch cheaterAddress (distributor 49)).message
      = "actual fee recipient 0xabcf8e0d4e9587369b2301d0790347320302cc09 didn't match expected fee recipient 0x0000000000000000000000000000000000000031" := by
  have h1 : ∀ it, it ∈ [({ validator_index := 48, fee_recipient := distributor 48 } :
        PreparationItem)] → decidePreparation mockLayers OperatorType.POOL it = none := by
    decide
  have h2 : decidePreparation mockLayers OperatorType.POOL
        { validator_index := 49, fee_recipient := cheaterAddress }
      = some (mismatch cheaterAddress (distributor 49)) := by
    decide
  have h3 : ∀ it, it ∈ [registration "0" (distributor 48)] →
      decideRegistration mockLayers OperatorType.POOL it = none := by
    decide
  have h4 : decideRegistration mockLayers OperatorType.POOL (registration "1" cheaterAddress)
      = some (mismatch cheaterAddress (distributor 49)) := by
    decide
  have h := first_denial_aborts mockLayers OperatorType.POOL _ _ [] _ _ _ [] _ h1 h2 h3 h4
  exact ⟨h1, h2, h3, h4, h.1, h.2.2.1, rfl, by decide⟩

end rewriter

/-! ## Properties of the admin api -/

namespace admin

/-- C11: `Stop` returns nil without calling `Close` whenever `Shutdown` returns nil: the
server is left as `Shutdown` left it and the only call it received is `Shutdown`.
Whenever `Shutdown` returns an error, whichever it is, `Stop` calls `Close` exactly once,
after `Shutdown`, and returns what `Close` returns; the error of `Shutdown` is dropped. -/
theorem Stop_closes_on_any_error {C S : Type} (lib : http.ServerMethods C S)
    (a : AdminApi S) (ctx : C) (calls : List http.Method) :
    ((lib.Shutdown ctx a.Server).1 = none →
      a.Stop lib ctx = (none, { a with Server := (lib.Shutdown ctx a.Server).2 }) ∧
      (AdminApi.Stop lib.recorded
          { Server := (a.Server, calls), metricsHandler := a.metricsHandler } ctx).2.Server.2
        = calls ++ [http.Method.Shutdown]) ∧
    (∀ e, (lib.Shutdown ctx a.Server).1 = some e →
      a.Stop lib ctx =
        ((lib.Close (lib.Shutdown ctx a.Server).2).1,
         { a with Server := (lib.Close (lib.Shutdown ctx a.Server).2).2 }) ∧
      (AdminApi.Stop lib.recorded
          { Server := (a.Server, calls), metricsHandler := a.metricsHandler } ctx).1
        = (lib.Close (lib.Shutdown ctx a.Server).2).1 ∧
      (AdminApi.Stop lib.recorded
          { Server := (a.Server, calls), metricsHandler := a.metricsHandler } ctx).2.Server.2
        = calls ++ [http.Method.Shutdown, http.Method.Close]) := by
  constructor
  · intro h
    constructor
    · unfold AdminApi.Stop
      simp only [h]
    · unfold AdminApi.Stop
      simp only [http.ServerMethods.recorded, h]
  · intro e h
    refine ⟨?_, ?_, ?_⟩
    · unfold AdminApi.Stop
      simp only [h]
    · unfold AdminApi.Stop
      simp only [http.ServerMethods.recorded, h]
    · unfold AdminApi.Stop
      simp only [http.ServerMethods.recorded, h]
      simp

/-- C11, at a server with three connections in flight whose context was cancelled, not
timed out: `Stop` calls `Shutdown`, then `Close` once, and returns the nil of `Close`. -/
theorem Stop_closes_on_any_error_witness :
    (busyServer.Shutdown "context canceled" 3).1 = some "context canceled" ∧
    AdminApi.Stop busyServer { Server := 3, metricsHandler := none } "context canceled"
      = (none, { Server := 0, metricsHandler := none }) ∧
    (AdminApi.Stop busyServer.recorded { Server := (3, []), metricsHandler := none }
        "context canceled").2.Server.2
      = [http.Method.Shutdown, http.Method.Close] :=
  ⟨rfl,
    ((Stop_closes_on_any_error busyServer { Server := 3, metricsHandler := none }
      "context canceled" []).2 "context canceled" rfl).1,
    ((Stop_closes_on_any_error busyServer { Server := 3, metricsHandler := none }
      "context canceled" []).2 "context canceled" rfl).2.2⟩

end admin

/-! ## Frame and failure of the registry lookups -/

namespace metrics

open prometheus

theorem GoMap.filter_absent {M : Type} (m : GoMap M) (name : String)
    (h : m.get name = none) : List.filter (fun e => !(e.1 == name)) m = m := by
  induction m with
  | nil => rfl
  | cons e es ih =>
    obtain ⟨k, v⟩ := e
    by_cases hk : name = k
    · rw [hk, GoMap.get_cons_self] at h
      cases h
    · rw [GoMap.get_cons_other es k name v hk] at h
      have hk' : ¬ k = name := fun hh => hk hh.symm
      simp [List.filter_cons, hk', ih h]

/-- C15: `value(name, opts)` changes at most the entry for `name`. Every other name
reads as before, every name that had a metric keeps that metric, the number of entries
does not shrink and the initializor stays; and a lookup through `Counter` leaves the
gauge map, the histogram map and the subsystem of the registry as they were. -/
theorem value_changes_only_its_name {M O S : Type} (mm : MetricsMap M O S) (name : String)
    (opts : O) (s : S) :
    (∀ n, n ≠ name → (mm.value name opts s).2.1.m.get n = mm.m.get n) ∧
    (∀ n v, mm.m.get n = some v → (mm.value name opts s).2.1.m.get n = some v) ∧
    mm.m.length ≤ (mm.value name opts s).2.1.m.length ∧
    (mm.value name opts s).2.1.initializor = mm.initializor ∧
    (∀ (mtx : Option Metrics) (m : MetricsRegistry) (w : World) (c : Counter)
        (m' : MetricsRegistry) (w' : World),
      m.Counter mtx name w = Except.ok (c, m', w') →
      m'.gauges = m.gauges ∧ m'.histograms = m.histograms ∧ m'.subsystem = m.subsystem ∧
      (∀ n, n ≠ name → m'.counters.m.get n = m.counters.m.get n) ∧
      (∀ n v, m.counters.m.get n = some v → m'.counters.m.get n = some v)) := by
  refine ⟨?_, ?_, ?_, MetricsMap.value_initializor mm name opts s, ?_⟩
  · intro n hn
    exact MetricsMap.value_get_other mm name n opts s hn
  · intro n v hv
    exact MetricsMap.value_keeps mm name n opts s v hv
  · cases h : mm.m.get name with
    | some v =>
      rw [MetricsMap.value_found mm name opts s v h]
    | none =>
      rw [MetricsMap.value_created mm name opts s h]
      show mm.m.length ≤ (mm.m.set name (mm.initializor opts s).1).length
      unfold GoMap.set
      rw [GoMap.filter_absent mm.m name h]
      exact Nat.le_succ _
  · intro mtx m w c m' w' h
    cases mtx with
    | none =>
      simp [MetricsRegistry.Counter] at h
    | some x =>
      simp only [MetricsRegistry.Counter, Except.ok.injEq, Prod.mk.injEq] at h
      obtain ⟨_, hm, _⟩ := h
      subst hm
      refine ⟨rfl, rfl, rfl, ?_, ?_⟩
      · intro n hn
        exact MetricsMap.value_get_other m.counters name n _ w hn
      · intro n v hv
        exact MetricsMap.value_keeps m.counters name n _ w v hv

end metrics

/-! ## Further properties of the credential verifier and its counters -/

namespace router

open credentials metrics prometheus

theorem authenticate_error_cases (Base64URLDecode : Decoder) (mtx : Option Metrics)
    (now : time.Time) (a : auth) (w : World) (username password : String)
    (cred : Option AuthenticatedCredential) (e : authenticationError) (a' : auth) (w' : World)
    (h : a.authenticate Base64URLDecode mtx now w username password
      = Except.ok ((cred, some e), a', w')) :
    ((∃ err, e = malformed err) ∧
      ¬ (¬ (len username = 0 ∨ len password = 0) ∧
        ∃ ac, Base64URLDecode username password = Except.ok ac ∧ a.cm.Verify ac = none)) ∨
    ((∃ err, e = invalid err) ∧
      ¬ (¬ (len username = 0 ∨ len password = 0) ∧
        ∃ ac, Base64URLDecode username password = Except.ok ac ∧ a.cm.Verify ac = none)) ∨
    (e = expired ∧ ¬ (len username = 0 ∨ len password = 0) ∧
      ∃ ac, Base64URLDecode username password = Except.ok ac ∧ a.cm.Verify ac = none ∧
        (time.Unix ac.Credential.Timestamp 0).Before now = true ∧
        now.Sub (time.Unix ac.Credential.Timestamp 0) > a.authValidityWindow) := by
  by_cases hempty : len username = 0 ∨ len password = 0
  · rw [authenticate_empty _ _ _ _ _ _ _ hempty] at h
    have h1 := count_returns _ _ _ _ _ _ _ h
    simp only [Prod.mk.injEq, Option.some.injEq] at h1
    refine Or.inl ⟨⟨_, h1.2⟩, ?_⟩
    rintro ⟨hne, _⟩
    exact hne hempty
  · cases hd : Base64URLDecode username password with
    | error err =>
      rw [authenticate_undecodable _ _ _ _ _ _ _ err hempty hd] at h
      have h1 := count_returns _ _ _ _ _ _ _ h
      simp only [Prod.mk.injEq, Option.some.injEq] at h1
      refine Or.inl ⟨⟨_, h1.2⟩, ?_⟩
      rintro ⟨_, ac, hac, _⟩
      cases hac
    | ok ac =>
      cases hv : a.cm.Verify ac with
      | some err =>
        rw [authenticate_unverified _ _ _ _ _ _ _ ac err hempty hd hv] at h
        have h1 := count_returns _ _ _ _ _ _ _ h
        simp only [Prod.mk.injEq, Option.some.injEq] at h1
        refine Or.inr (Or.inl ⟨⟨_, h1.2⟩, ?_⟩)
        rintro ⟨_, ac', hac, hv'⟩
        cases hac
        rw [hv] at hv'
        cases hv'
      | none =>
        by_cases hx : (time.Unix ac.Credential.Timestamp 0).ns < now.ns
            ∧ now.Sub (time.Unix ac.Credential.Timestamp 0) > a.authValidityWindow
        · rw [authenticate_stale _ _ _ _ _ _ _ ac hempty hd hv hx] at h
          have h1 := count_returns _ _ _ _ _ _ _ h
          simp only [Prod.mk.injEq, Option.some.injEq] at h1
          refine Or.inr (Or.inr ⟨h1.2, hempty, ac, rfl, hv, ?_, hx.2⟩)
          simpa [time.Time.Before] using hx.1
        · rw [authenticate_current _ _ _ _ _ _ _ ac hempty hd hv hx] at h
          have h1 := count_returns _ _ _ _ _ _ _ h
          simp at h1

/-- C13: for each of the three constructors the status for the guarded proxy agrees with
the gRPC code: a malformed and an invalid error carry `Unauthorized` with
`Unauthenticated`, the expired error carries `Forbidden` with `PermissionDenied`, and
all three carry the HTTP status 401. Hence an error that `authenticate` returns has the
status `Forbidden` exactly when it is the expired error, which is exactly when the
credential decoded, passed `Verify` and is stale; its HTTP status is 401 in every case. -/
theorem gbpStatus_agrees_with_grpcCode :
    (∀ err : String,
      (malformed err).gbpStatus = gbp.AuthenticationStatus.Unauthorized ∧
      (malformed err).grpcCode = codes.Code.Unauthenticated ∧
      (malformed err).httpStatus = 401) ∧
    (∀ err : String,
      (invalid err).gbpStatus = gbp.AuthenticationStatus.Unauthorized ∧
      (invalid err).grpcCode = codes.Code.Unauthenticated ∧
      (invalid err).httpStatus = 401) ∧
    (expired.gbpStatus = gbp.AuthenticationStatus.Forbidden ∧
      expired.grpcCode = codes.Code.PermissionDenied ∧
      expired.httpStatus = 401) ∧
    (∀ (Base64URLDecode : Decoder) (mtx : Option Metrics) (now : time.Time) (a : auth)
        (w : World) (username password : String) (cred : Option AuthenticatedCredential)
        (e : authenticationError) (a' : auth) (w' : World),
      a.authenticate Base64URLDecode mtx now w username password
        = Except.ok ((cred, some e), a', w') →
      (e.gbpStatus = gbp.AuthenticationStatus.Forbidden ↔ e = expired) ∧
      (e.gbpStatus = gbp.AuthenticationStatus.Forbidden ↔
        e.grpcCode = codes.Code.PermissionDenied) ∧
      (e.gbpStatus = gbp.AuthenticationStatus.Unauthorized ↔
        e.grpcCode = codes.Code.Unauthenticated) ∧
      (e.gbpStatus = gbp.AuthenticationStatus.Forbidden ↔
        (¬ (len username = 0 ∨ len password = 0) ∧
          ∃ ac, Base64URLDecode username password = Except.ok ac ∧ a.cm.Verify ac = none ∧
            (time.Unix ac.Credential.Timestamp 0).Before now = true ∧
            now.Sub (time.Unix ac.Credential.Timestamp 0) > a.authValidityWindow)) ∧
      e.httpStatus = 401) := by
  refine ⟨fun _ => ⟨rfl, rfl, rfl⟩, fun _ => ⟨rfl, rfl, rfl⟩, ⟨rfl, rfl, rfl⟩, ?_⟩
  intro Base64URLDecode mtx now a w username password cred e a' w' h
  rcases authenticate_error_cases Base64URLDecode mtx now a w username password cred e a' w' h
    with ⟨⟨err, he⟩, hno⟩ | ⟨⟨err, he⟩, hno⟩ | ⟨he, hne, ac, hd, hv, hb, hs⟩
  · subst he
    refine ⟨?_, ?_, ?_, ?_, rfl⟩
    · constructor
      · intro hh
        simp [malformed] at hh
      · intro hh
        exact absurd hh (malformed_ne_expired err)
    · simp [malformed]
    · simp [malformed]
    · constructor
      · intro hh
        simp [malformed] at hh
      · rintro ⟨h1, ac, h2, h3, _⟩
        exact absurd ⟨h1, ac, h2, h3⟩ hno
  · subst he
    refine ⟨?_, ?_, ?_, ?_, rfl⟩
    · constructor
      · intro hh
        simp [invalid] at hh
      · intro hh
        exact absurd hh (invalid_ne_expired err)
    · simp [invalid]
    · simp [invalid]
    · constructor
      · intro hh
        simp [invalid] at hh
      · rintro ⟨h1, ac, h2, h3, _⟩
        exact absurd ⟨h1, ac, h2, h3⟩ hno
  · subst he
    refine ⟨?_, ?_, ?_, ?_, rfl⟩
    · exact ⟨fun _ => rfl, fun _ => rfl⟩
    · simp [expired]
    · simp [expired]
    · exact ⟨fun _ => ⟨hne, ac, hd, hv, hb, hs⟩, fun _ => rfl⟩

theorem incAt_opts (i j : Nat) (l : List CounterCell) :
    ((incAt i l)[j]?).map CounterCell.opts = (l[j]?).map CounterCell.opts := by
  by_cases h : j = i
  · rw [h, incAt_getElem?_self]
    cases l[i]? <;> rfl
  · rw [incAt_getElem?_ne i j l h]

theorem count_labelled (x : Metrics) (a : auth) (w : World) (name : String)
    (cred : Option AuthenticatedCredential) (err : Option authenticationError)
    (hreg : Registered a.metricsRegistry w) (hlab : Labelled x a.metricsRegistry w) :
    ∃ a' w', a.count (some x) w name cred err = Except.ok ((cred, err), a', w') ∧
      Labelled x a'.metricsRegistry w' ∧
      a'.metricsRegistry.subsystem = a.metricsRegistry.subsystem ∧
      ∀ n c, a'.metricsRegistry.counters.m.get n = some c →
        n = name ∨ a.metricsRegistry.counters.m.get n = some c := by
  obtain ⟨hinit, hlt, _⟩ := hreg
  rw [count_eq]
  cases hg : a.metricsRegistry.counters.m.get name with
  | some c =>
    rw [MetricsMap.value_found _ _ _ _ c hg]
    refine ⟨_, _, rfl, ?_, rfl, ?_⟩
    · intro n d hd
      have h1 := hlab n d hd
      show ((incAt c.ref w.counters)[d.ref]?).map CounterCell.opts = _
      rw [incAt_opts]
      exact h1
    · intro n d hd
      exact Or.inr hd
  | none =>
    rw [MetricsMap.value_created _ _ _ _ hg, hinit]
    refine ⟨_, _, rfl, ?_, rfl, ?_⟩
    · intro n d hd
      have hd' : (a.metricsRegistry.counters.m.set name (promauto.NewCounter
          { Namespace := x.«namespace», Subsystem := a.metricsRegistry.subsystem, Name := name }
          w).1).get n = some d := hd
      show ((incAt w.counters.length (w.counters ++
          [{ opts := { Namespace := x.«namespace», Subsystem := a.metricsRegistry.subsystem,
                       Name := name }, incs := 0 }]))[d.ref]?).map CounterCell.opts
        = some { Namespace := x.«namespace», Subsystem := a.metricsRegistry.subsystem,
                 Name := n }
      rw [incAt_opts]
      by_cases hn : n = name
      · rw [hn, GoMap.get_set_self] at hd'
        cases hd'
        rw [hn]
        simp [promauto.NewCounter]
      · rw [GoMap.get_set_other _ _ _ _ hn] at hd'
        rw [List.getElem?_append_left (hlt n d hd')]
        exact hlab n d hd'
    · intro n d hd
      have hd' : (a.metricsRegistry.counters.m.set name (promauto.NewCounter
          { Namespace := x.«namespace», Subsystem := a.metricsRegistry.subsystem, Name := name }
          w).1).get n = some d := hd
      by_cases hn : n = name
      · exact Or.inl hn
      · rw [GoMap.get_set_other _ _ _ _ hn] at hd'
        exact Or.inr hd'

theorem authenticate_is_count (Base64URLDecode : Decoder) (mtx : Option Metrics)
    (now : time.Time) (a : auth) (w : World) (username password : String) :
    ∃ name cred err, name ∈ ["malformed", "invalid", "expired", "valid"] ∧
      a.authenticate Base64URLDecode mtx now w username password
        = a.count mtx w name cred err := by
  by_cases h : len username = 0 ∨ len password = 0
  · exact ⟨"malformed", _, _, by simp, authenticate_empty _ _ _ _ _ _ _ h⟩
  · cases hd : Base64URLDecode username password with
    | error e =>
      exact ⟨"malformed", _, _, by simp, authenticate_undecodable _ _ _ _ _ _ _ e h hd⟩
    | ok ac =>
      cases hv : a.cm.Verify ac with
      | some e =>
        exact ⟨"invalid", _, _, by simp, authenticate_unverified _ _ _ _ _ _ _ ac e h hd hv⟩
      | none =>
        by_cases hx : (time.Unix ac.Credential.Timestamp 0).ns < now.ns
            ∧ now.Sub (time.Unix ac.Credential.Timestamp 0) > a.authValidityWindow
        · exact ⟨"expired", _, _, by simp, authenticate_stale _ _ _ _ _ _ _ ac h hd hv hx⟩
        · exact ⟨"valid", _, _, by simp, authenticate_current _ _ _ _ _ _ _ ac h hd hv hx⟩

theorem authenticateAll_labelled (Base64URLDecode : Decoder) (x : Metrics)
    (calls : List Call) :
    ∀ (a : auth) (w : World), Registered a.metricsRegistry w →
      Labelled x a.metricsRegistry w →
      (∀ n c, a.metricsRegistry.counters.m.get n = some c →
        n ∈ ["malformed", "invalid", "expired", "valid"]) →
      ∃ a' w', a.authenticateAll Base64URLDecode (some x) w calls = Except.ok (a', w') ∧
        Labelled x a'.metricsRegistry w' ∧
        a'.metricsRegistry.subsystem = a.metricsRegistry.subsystem ∧
        (∀ n c, a'.metricsRegistry.counters.m.get n = some c →
          n ∈ ["malformed", "invalid", "expired", "valid"]) := by
  induction calls with
  | nil =>
    intro a w _ hlab hkeys
    exact ⟨a, w, rfl, hlab, rfl, hkeys⟩
  | cons c cs ih =>
    intro a w hreg hlab hkeys
    obtain ⟨name, cred, err, hname, hcount⟩ :=
      authenticate_is_count Base64URLDecode (some x) c.now a w c.username c.password
    obtain ⟨a1, w1, h1, hreg1, _⟩ := count_increments x a w name cred err hreg
    obtain ⟨a2, w2, h2, hlab2, hsub2, hkeys2⟩ := count_labelled x a w name cred err hreg hlab
    rw [h1] at h2
    simp only [Except.ok.injEq, Prod.mk.injEq, true_and] at h2
    obtain ⟨ha, hw⟩ := h2
    subst ha hw
    have hkeys1 : ∀ n d, a1.metricsRegistry.counters.m.get n = some d →
        n ∈ ["malformed", "invalid", "expired", "valid"] := by
      intro n d hd
      rcases hkeys2 n d hd with hn | hold
      · rw [hn]
        exact hname
      · exact hkeys n d hold
    obtain ⟨a3, w3, h3, hlab3, hsub3, hkeys3⟩ := ih a1 w1 hreg1 hlab2 hkeys1
    refine ⟨a3, w3, ?_, hlab3, hsub3.trans hsub2, hkeys3⟩
    unfold auth.authenticateAll
    rw [hcount, h1]
    exact h3

theorem Counter_creates (x : Metrics) (m : MetricsRegistry) (name : String) (w : World)
    (h : Promauto m) :
    ∃ c m' w', m.Counter (some x) name w = Except.ok (c, m', w') ∧
      m'.subsystem = m.subsystem ∧ Promauto m' ∧
      (m.counters.m.get name = none →
        c = { ref := w.counters.length } ∧
        w' = { w with counters := w.counters ++
          [{ opts := { Namespace := x.«namespace», Subsystem := m.subsystem, Name := name },
             incs := 0 }] }) ∧
      (m.counters.m.get name ≠ none → w' = w) := by
  obtain ⟨hc, hg, hh⟩ := h
  refine ⟨_, _, _, rfl, rfl, ⟨?_, hg, hh⟩, ?_, ?_⟩
  · exact (MetricsMap.value_initializor m.counters name _ w).trans hc
  · intro hnone
    show (m.counters.value name _ w).1 = _ ∧ (m.counters.value name _ w).2.2 = _
    rw [MetricsMap.value_created _ _ _ _ hnone, hc]
    exact ⟨rfl, rfl⟩
  · intro hsome
    cases hv : m.counters.m.get name with
    | none => exact absurd hv hsome
    | some v =>
      show (m.counters.value name _ w).2.2 = w
      rw [MetricsMap.value_found _ _ _ _ v hv]

theorem Gauge_creates (x : Metrics) (m : MetricsRegistry) (name : String) (w : World)
    (h : Promauto m) :
    ∃ g m' w', m.Gauge (some x) name w = Except.ok (g, m', w') ∧
      m'.subsystem = m.subsystem ∧ Promauto m' ∧
      (m.gauges.m.get name = none →
        g = { ref := w.gauges.length } ∧
        w' = { w with gauges := w.gauges ++
          [{ Namespace := x.«namespace», Subsystem := m.subsystem, Name := name }] }) ∧
      (m.gauges.m.get name ≠ none → w' = w) := by
  obtain ⟨hc, hg, hh⟩ := h
  refine ⟨_, _, _, rfl, rfl, ⟨hc, ?_, hh⟩, ?_, ?_⟩
  · exact (MetricsMap.value_initializor m.gauges name _ w).trans hg
  · intro hnone
    show (m.gauges.value name _ w).1 = _ ∧ (m.gauges.value name _ w).2.2 = _
    rw [MetricsMap.value_created _ _ _ _ hnone, hg]
    exact ⟨rfl, rfl⟩
  · intro hsome
    cases hv : m.gauges.m.get name with
    | none => exact absurd hv hsome
    | some v =>
      show (m.gauges.value name _ w).2.2 = w
      rw [MetricsMap.value_found _ _ _ _ v hv]

theorem Histogram_creates (x : Metrics) (m : MetricsRegistry) (name : String) (w : World)
    (h : Promauto m) :
    ∃ g m' w', m.Histogram (some x) name w = Except.ok (g, m', w') ∧
      m'.subsystem = m.subsystem ∧ Promauto m' ∧
      (m.histograms.m.get name = none →
        g = { ref := w.histograms.length } ∧
        w' = { w with histograms := w.histograms ++
          [{ Namespace := x.«namespace», Subsystem := m.subsystem, Name := name }] }) ∧
      (m.histograms.m.get name ≠ none → w' = w) := by
  obtain ⟨hc, hg, hh⟩ := h
  refine ⟨_, _, _, rfl, rfl, ⟨hc, hg, ?_⟩, ?_, ?_⟩
  · exact (MetricsMap.value_initializor m.histograms name _ w).trans hh
  · intro hnone
    show (m.histograms.value name _ w).1 = _ ∧ (m.histograms.value name _ w).2.2 = _
    rw [MetricsMap.value_created _ _ _ _ hnone, hh]
    exact ⟨rfl, rfl⟩
  · intro hsome
    cases hv : m.histograms.m.get name with
    | none => exact absurd hv hsome
    | some v =>
      show (m.histograms.value name _ w).2.2 = w
      rw [MetricsMap.value_found _ _ _ _ v hv]

end router

/-! ## Properties of the lookups with the registration of `promauto` -/

namespace prometheus

theorem incAt_map_names (i : Nat) (l : List CounterCell) :
    (incAt i l).map (fun c => BuildFQName c.opts.Namespace c.opts.Subsystem c.opts.Name)
      = l.map (fun c => BuildFQName c.opts.Namespace c.opts.Subsystem c.opts.Name) := by
  induction l generalizing i with
  | nil => cases i <;> rfl
  | cons c cs ih =>
    cases i with
    | zero => rfl
    | succ i => simp [incAt, ih i]

theorem registered_Inc (c : Counter) (w : World) : (c.Inc w).registered = w.registered := by
  unfold World.registered Counter.Inc
  simp only [incAt_map_names]

theorem registered_NewCounter (opts : CounterOpts) (w : World) (s : String) :
    s ∈ (promauto.NewCounter opts w).2.registered ↔
      (s ∈ w.registered ∨ s = BuildFQName opts.Namespace opts.Subsystem opts.Name) := by
  unfold World.registered promauto.NewCounter
  simp only [List.map_append, List.mem_append, List.map_cons, List.map_nil,
    List.mem_singleton]
  tauto

theorem append_cancel (p a b : String) (h : p ++ a = p ++ b) : a = b := by
  have h2 := congrArg String.data h
  simp only [String.data_append, List.append_cancel_left_eq] at h2
  exact String.ext h2

theorem BuildFQName_inj (ns subsystem n k : String) (hn : n ≠ "") (hk : k ≠ "")
    (h : BuildFQName ns subsystem n = BuildFQName ns subsystem k) : n = k := by
  unfold BuildFQName at h
  rw [if_neg hn, if_neg hk] at h
  split_ifs at h
  · exact append_cancel _ _ _ h
  · exact append_cancel _ _ _ h
  · exact append_cancel _ _ _ h
  · exact h

theorem MustRegister_none_iff (ns subsystem name : String) (w : World) :
    MustRegister ns subsystem name w = none ↔
      (model.IsValidMetricName (BuildFQName ns subsystem name) = true
        ∧ BuildFQName ns subsystem name ∉ w.registered) := by
  unfold MustRegister
  split_ifs with h
  · exact ⟨fun _ => h, fun _ => rfl⟩
  · constructor
    · intro hh
      cases hh
    · intro hh
      exact absurd hh h

theorem MustRegister_some (ns subsystem name : String) (w : World) (p : Panic)
    (h : MustRegister ns subsystem name w = some p) : p = Panic.registration := by
  unfold MustRegister at h
  split_ifs at h
  exact (Option.some.inj h).symm

end prometheus

namespace registering

open credentials metrics router prometheus

theorem value_same {M O S : Type} (panics : O → S → Option Panic) (mm : MetricsMap M O S)
    (name : String) (opts : O) (s : S) (h : mm.m.get name ≠ none ∨ panics opts s = none) :
    value panics mm name opts s = Except.ok (mm.value name opts s) := by
  unfold value MetricsMap.value
  cases hg : mm.m.get name with
  | some v => rfl
  | none =>
    rcases h with h | h
    · exact absurd hg h
    · simp only [h]

theorem value_panics {M O S : Type} (panics : O → S → Option Panic) (mm : MetricsMap M O S)
    (name : String) (opts : O) (s : S) (p : Panic) (hg : mm.m.get name = none)
    (hp : panics opts s = some p) : value panics mm name opts s = Except.error p := by
  unfold value
  simp only [hg, hp]

theorem value_cases {M O S : Type} (panics : O → S → Option Panic) (mm : MetricsMap M O S)
    (name : String) (opts : O) (s : S) :
    (value panics mm name opts s = Except.ok (mm.value name opts s)
      ∧ (mm.m.get name ≠ none ∨ panics opts s = none)) ∨
    (∃ p, value panics mm name opts s = Except.error p
      ∧ mm.m.get name = none ∧ panics opts s = some p) := by
  cases hg : mm.m.get name with
  | some v =>
    have h : mm.m.get name ≠ none ∨ panics opts s = none := Or.inl (by rw [hg]; simp)
    rw [hg] at h
    exact Or.inl ⟨value_same panics mm name opts s (by rw [hg]; exact h), h⟩
  | none =>
    cases hp : panics opts s with
    | none =>
      exact Or.inl ⟨value_same panics mm name opts s (Or.inr hp), Or.inr rfl⟩
    | some p =>
      exact Or.inr ⟨p, value_panics panics mm name opts s p hg hp, rfl, rfl⟩

theorem Counter_cases (x : Metrics) (m : MetricsRegistry) (name : String) (w : World) :
    (Counter (some x) m name w = m.Counter (some x) name w
      ∧ (m.counters.m.get name ≠ none
        ∨ MustRegister x.«namespace» m.subsystem name w = none)) ∨
    (Counter (some x) m name w = Except.error Panic.registration
      ∧ m.counters.m.get name = none
      ∧ MustRegister x.«namespace» m.subsystem name w = some Panic.registration) := by
  rcases value_cases (fun (o : CounterOpts) v => MustRegister o.Namespace o.Subsystem o.Name v)
    m.counters name { Namespace := x.«namespace», Subsystem := m.subsystem, Name := name } w
    with ⟨h1, h2⟩ | ⟨p, h1, h2, h3⟩
  · left
    refine ⟨?_, h2⟩
    unfold Counter MetricsRegistry.Counter
    simp only [h1]
  · right
    have hp : p = Panic.registration := MustRegister_some _ _ _ _ p h3
    subst hp
    refine ⟨?_, h2, h3⟩
    unfold Counter
    simp only [h1]

theorem Gauge_cases (x : Metrics) (m : MetricsRegistry) (name : String) (w : World) :
    (Gauge (some x) m name w = m.Gauge (some x) name w
      ∧ (m.gauges.m.get name ≠ none
        ∨ MustRegister x.«namespace» m.subsystem name w = none)) ∨
    (Gauge (some x) m name w = Except.error Panic.registration
      ∧ m.gauges.m.get name = none
      ∧ MustRegister x.«namespace» m.subsystem name w = some Panic.registration) := by
  rcases value_cases (fun (o : GaugeOpts) v => MustRegister o.Namespace o.Subsystem o.Name v)
    m.gauges name { Namespace := x.«namespace», Subsystem := m.subsystem, Name := name } w
    with ⟨h1, h2⟩ | ⟨p, h1, h2, h3⟩
  · left
    refine ⟨?_, h2⟩
    unfold Gauge MetricsRegistry.Gauge
    simp only [h1]
  · right
    have hp : p = Panic.registration := MustRegister_some _ _ _ _ p h3
    subst hp
    refine ⟨?_, h2, h3⟩
    unfold Gauge
    simp only [h1]

theorem Histogram_cases (x : Metrics) (m : MetricsRegistry) (name : String) (w : World) :
    (Histogram (some x) m name w = m.Histogram (some x) name w
      ∧ (m.histograms.m.get name ≠ none
        ∨ MustRegister x.«namespace» m.subsystem name w = none)) ∨
    (Histogram (some x) m name w = Except.error Panic.registration
      ∧ m.histograms.m.get name = none
      ∧ MustRegister x.«namespace» m.subsystem name w = some Panic.registration) := by
  rcases value_cases
    (fun (o : HistogramOpts) v => MustRegister o.Namespace o.Subsystem o.Name v)
    m.histograms name { Namespace := x.«namespace», Subsystem := m.subsystem, Name := name } w
    with ⟨h1, h2⟩ | ⟨p, h1, h2, h3⟩
  · left
    refine ⟨?_, h2⟩
    unfold Histogram MetricsRegistry.Histogram
    simp only [h1]
  · right
    have hp : p = Panic.registration := MustRegister_some _ _ _ _ p h3
    subst hp
    refine ⟨?_, h2, h3⟩
    unfold Histogram
    simp only [h1]

theorem count_cases (x : Metrics) (a : auth) (w : World) (name : String)
    (cred : Option AuthenticatedCredential) (err : Option authenticationError) :
    (count (some x) a w name cred err = a.count (some x) w name cred err
      ∧ (a.metricsRegistry.counters.m.get name ≠ none
        ∨ MustRegister x.«namespace» a.metricsRegistry.subsystem name w = none)) ∨
    (count (some x) a w name cred err = Except.error Panic.registration
      ∧ a.metricsRegistry.counters.m.get name = none
      ∧ MustRegister x.«namespace» a.metricsRegistry.subsystem name w
        = some Panic.registration) := by
  rcases Counter_cases x a.metricsRegistry name w with ⟨h1, h2⟩ | ⟨h1, h2, h3⟩
  · left
    refine ⟨?_, h2⟩
    unfold count auth.count
    rw [h1]
  · right
    refine ⟨?_, h2, h3⟩
    unfold count
    rw [h1]

theorem count_without_metrics (a : auth) (w : World) (name : String)
    (cred : Option AuthenticatedCredential) (err : Option authenticationError) :
    count none a w name cred err = Except.error Panic.nilDereference := rfl

theorem authenticate_branches (Base64URLDecode : Decoder) (mtx : Option Metrics)
    (now : time.Time) (a : auth) (w : World) (username password : String) :
    ∃ name cred err, name ∈ ["malformed", "invalid", "expired", "valid"] ∧
      a.authenticate Base64URLDecode mtx now w username password
        = a.count mtx w name cred err ∧
      authenticate Base64URLDecode mtx now a w username password
        = count mtx a w name cred err := by
  by_cases h : len username = 0 ∨ len password = 0
  · refine ⟨"malformed", _, _, by simp, authenticate_empty _ _ _ _ _ _ _ h, ?_⟩
    unfold authenticate
    rw [if_pos h]
  · cases hd : Base64URLDecode username password with
    | error e =>
      refine ⟨"malformed", _, _, by simp, authenticate_undecodable _ _ _ _ _ _ _ e h hd, ?_⟩
      unfold authenticate
      rw [if_neg h, hd]
    | ok ac =>
      cases hv : a.cm.Verify ac with
      | some e =>
        refine ⟨"invalid", _, _, by simp,
          authenticate_unverified _ _ _ _ _ _ _ ac e h hd hv, ?_⟩
        unfold authenticate
        rw [if_neg h, hd]
        simp only [hv]
      | none =>
        by_cases hx : (time.Unix ac.Credential.Timestamp 0).ns < now.ns
            ∧ now.Sub (time.Unix ac.Credential.Timestamp 0) > a.authValidityWindow
        · refine ⟨"expired", _, _, by simp,
            authenticate_stale _ _ _ _ _ _ _ ac h hd hv hx, ?_⟩
          unfold authenticate
          rw [if_neg h, hd]
          simp only [hv]
          rw [if_pos]
          simp only [time.Time.Before, Bool.and_eq_true, decide_eq_true_eq]
          exact hx
        · refine ⟨"valid", _, _, by simp,
            authenticate_current _ _ _ _ _ _ _ ac h hd hv hx, ?_⟩
          unfold authenticate
          rw [if_neg h, hd]
          simp only [hv]
          rw [if_neg]
          simp only [time.Time.Before, Bool.and_eq_true, decide_eq_true_eq]
          exact hx

theorem authenticate_returns (Base64URLDecode : Decoder) (mtx : Option Metrics)
    (now : time.Time) (a : auth) (w : World) (username password : String) (r : AuthResult)
    (h : authenticate Base64URLDecode mtx now a w username password = Except.ok r) :
    ∃ x, mtx = some x ∧
      a.authenticate Base64URLDecode mtx now w username password = Except.ok r := by
  obtain ⟨name, cred, err, _, h1, h2⟩ :=
    authenticate_branches Base64URLDecode mtx now a w username password
  rw [h2] at h
  cases mtx with
  | none =>
    rw [count_without_metrics] at h
    cases h
  | some x =>
    refine ⟨x, rfl, ?_⟩
    rw [h1]
    rcases count_cases x a w name cred err with ⟨k1, _⟩ | ⟨k1, _⟩
    · rw [← k1]
      exact h
    · rw [k1] at h
      cases h

theorem authenticateAll_returns (Base64URLDecode : Decoder) (mtx : Option Metrics)
    (calls : List Call) :
    ∀ (a : auth) (w : World) (r : auth × World),
      authenticateAll Base64URLDecode mtx a w calls = Except.ok r →
      a.authenticateAll Base64URLDecode mtx w calls = Except.ok r := by
  induction calls with
  | nil =>
    intro a w r h
    exact h
  | cons c cs ih =>
    intro a w r h
    unfold authenticateAll at h
    cases h1 : authenticate Base64URLDecode mtx c.now a w c.username c.password with
    | error p =>
      rw [h1] at h
      cases h
    | ok v =>
      rw [h1] at h
      obtain ⟨_, _, h2⟩ := authenticate_returns _ _ _ _ _ _ _ v h1
      unfold auth.authenticateAll
      rw [h2]
      exact ih v.2.1 v.2.2 r h

theorem outcome_name_ne_empty (n : String)
    (h : n ∈ ["malformed", "invalid", "expired", "valid"]) : n ≠ "" := by
  simp only [List.mem_cons, List.mem_singleton, List.not_mem_nil, or_false] at h
  rcases h with h | h | h | h <;> rw [h] <;> decide

theorem count_keeps_free (x : Metrics) (a : auth) (w : World) (name : String)
    (cred : Option AuthenticatedCredential) (err : Option authenticationError)
    (hreg : Registered a.metricsRegistry w)
    (hname : name ∈ ["malformed", "invalid", "expired", "valid"])
    (hfree : ∀ n, n ∈ ["malformed", "invalid", "expired", "valid"] →
      a.metricsRegistry.counters.m.get n ≠ none
        ∨ MustRegister x.«namespace» a.metricsRegistry.subsystem n w = none) :
    ∃ a' w', count (some x) a w name cred err = Except.ok ((cred, err), a', w') ∧
      a.count (some x) w name cred err = Except.ok ((cred, err), a', w') ∧
      a'.metricsRegistry.subsystem = a.metricsRegistry.subsystem ∧
      ∀ n, n ∈ ["malformed", "invalid", "expired", "valid"] →
        a'.metricsRegistry.counters.m.get n ≠ none
          ∨ MustRegister x.«namespace» a'.metricsRegistry.subsystem n w' = none := by
  have hsame : count (some x) a w name cred err = a.count (some x) w name cred err := by
    rcases count_cases x a w name cred err with ⟨k1, _⟩ | ⟨_, k2, k3⟩
    · exact k1
    · rcases hfree name hname with hh | hh
      · exact absurd k2 hh
      · rw [hh] at k3
        cases k3
  rw [hsame, count_eq]
  refine ⟨_, _, rfl, rfl, rfl, ?_⟩
  intro n hn
  show (a.metricsRegistry.counters.value name _ w).2.1.m.get n ≠ none ∨
    MustRegister x.«namespace» a.metricsRegistry.subsystem n
      ((a.metricsRegistry.counters.value name _ w).1.Inc
        (a.metricsRegistry.counters.value name _ w).2.2) = none
  by_cases hnn : n = name
  · left
    rw [hnn, MetricsMap.value_get_self]
    simp
  · rcases hfree n hn with hc | hm
    · left
      cases hv : a.metricsRegistry.counters.m.get n with
      | none => exact absurd hv hc
      | some v =>
        rw [MetricsMap.value_keeps _ _ _ _ _ v hv]
        simp
    · right
      rw [MustRegister_none_iff] at hm ⊢
      refine ⟨hm.1, ?_⟩
      rw [registered_Inc]
      cases hg : a.metricsRegistry.counters.m.get name with
      | some c =>
        rw [MetricsMap.value_found _ _ _ _ c hg]
        exact hm.2
      | none =>
        rw [MetricsMap.value_created _ _ _ _ hg, hreg.1]
        intro hmem
        rcases (registered_NewCounter _ w _).mp hmem with hold | hnew
        · exact hm.2 hold
        · exact hnn (BuildFQName_inj _ _ _ _ (outcome_name_ne_empty n hn)
            (outcome_name_ne_empty name hname) hnew)

theorem authenticate_keeps_free (Base64URLDecode : Decoder) (x : Metrics)
    (now : time.Time) (a : auth) (w : World) (username password : String)
    (hreg : Registered a.metricsRegistry w)
    (hfree : ∀ n, n ∈ ["malformed", "invalid", "expired", "valid"] →
      a.metricsRegistry.counters.m.get n ≠ none
        ∨ MustRegister x.«namespace» a.metricsRegistry.subsystem n w = none) :
    ∃ r, authenticate Base64URLDecode (some x) now a w username password = Except.ok r ∧
      a.authenticate Base64URLDecode (some x) now w username password = Except.ok r ∧
      r.2.1.metricsRegistry.subsystem = a.metricsRegistry.subsystem ∧
      ∀ n, n ∈ ["malformed", "invalid", "expired", "valid"] →
        r.2.1.metricsRegistry.counters.m.get n ≠ none
          ∨ MustRegister x.«namespace» r.2.1.metricsRegistry.subsystem n r.2.2 = none := by
  obtain ⟨name, cred, err, hname, h1, h2⟩ :=
    authenticate_branches Base64URLDecode (some x) now a w username password
  obtain ⟨a', w', k1, k2, k3, k4⟩ := count_keeps_free x a w name cred err hreg hname hfree
  exact ⟨((cred, err), a', w'), h2.trans k1, h1.trans k2, k3, k4⟩

theorem authenticateAll_keeps_free (Base64URLDecode : Decoder) (x : Metrics)
    (calls : List Call) :
    ∀ (a : auth) (w : World), Registered a.metricsRegistry w →
      (∀ n, n ∈ ["malformed", "invalid", "expired", "valid"] →
        a.metricsRegistry.counters.m.get n ≠ none
          ∨ MustRegister x.«namespace» a.metricsRegistry.subsystem n w = none) →
      ∃ a' w', authenticateAll Base64URLDecode (some x) a w calls = Except.ok (a', w') ∧
        a.authenticateAll Base64URLDecode (some x) w calls = Except.ok (a', w') ∧
        Registered a'.metricsRegistry w' ∧
        outcomeTotal a'.metricsRegistry w' = outcomeTotal a.metricsRegistry w + calls.length ∧
        ∀ n, n ∈ ["malformed", "invalid", "expired", "valid"] →
          a'.metricsRegistry.counters.m.get n ≠ none
            ∨ MustRegister x.«namespace» a'.metricsRegistry.subsystem n w' = none := by
  induction calls with
  | nil =>
    intro a w hreg hfree
    exact ⟨a, w, rfl, rfl, hreg, rfl, hfree⟩
  | cons c cs ih =>
    intro a w hreg hfree
    obtain ⟨r, h1, h2, _, h4⟩ :=
      authenticate_keeps_free Base64URLDecode x c.now a w c.username c.password hreg hfree
    obtain ⟨cred, err, a1, w1, k1, k2, k3⟩ :=
      authenticate_increments Base64URLDecode x c.now a w c.username c.password hreg
    rw [h2] at k1
    have hr : r = ((cred, err), a1, w1) := Except.ok.inj k1
    subst hr
    obtain ⟨a2, w2, j1, j2, j3, j4, j5⟩ := ih a1 w1 k2 h4
    refine ⟨a2, w2, ?_, ?_, j3, ?_, j5⟩
    · unfold authenticateAll
      rw [h1]
      exact j1
    · unfold auth.authenticateAll
      rw [h2]
      exact j2
    · rw [j4, outcomeTotal_step cred err _ _ _ _ k3, List.length_cons]
      omega

/-- C8: take the metrics package initialised and a library state in which the four
outcome counters of the verifier can still be registered: their fully-qualified names
are valid and not registered yet. Then any sequence of calls on the `auth` that
`initAuth` builds returns, with the registration panic of `promauto` in the model;
afterwards the counters "malformed", "invalid", "expired" and "valid" sum to the number
of calls; and any further call returns an outcome, increments the counter that names
this outcome by exactly one and leaves every other counter of the registry unchanged. -/
theorem authenticate_counts_outcome (Base64URLDecode : Decoder) (x : Metrics)
    (credentialManager : CredentialManager) (validityWindow : Int) (w0 : World)
    (calls : List Call)
    (hfree : ∀ n, n ∈ ["malformed", "invalid", "expired", "valid"] →
      MustRegister x.«namespace» "authentication" n w0 = none) :
    ∃ a w,
      authenticateAll Base64URLDecode (some x) (initAuth credentialManager validityWindow)
          w0 calls = Except.ok (a, w) ∧
      counterValue a.metricsRegistry w "malformed" + counterValue a.metricsRegistry w "invalid"
          + counterValue a.metricsRegistry w "expired" + counterValue a.metricsRegistry w "valid"
        = calls.length ∧
      ∀ c : Call, ∃ cred err a' w',
        authenticate Base64URLDecode (some x) c.now a w c.username c.password
          = Except.ok ((cred, err), a', w') ∧
        (((∃ e, err = some (malformed e)) ∧ cred = none ∧
            IncrementsOnly "malformed" a.metricsRegistry w a'.metricsRegistry w') ∨
          ((∃ e, err = some (invalid e)) ∧ cred = none ∧
            IncrementsOnly "invalid" a.metricsRegistry w a'.metricsRegistry w') ∨
          (err = some expired ∧ cred = none ∧
            IncrementsOnly "expired" a.metricsRegistry w a'.metricsRegistry w') ∨
          (err = none ∧ cred ≠ none ∧
            IncrementsOnly "valid" a.metricsRegistry w a'.metricsRegistry w')) := by
  obtain ⟨a, w, h1, _, h3, h4, h5⟩ := authenticateAll_keeps_free Base64URLDecode x calls
    (initAuth credentialManager validityWindow) w0
    (Registered_initAuth credentialManager validityWindow w0)
    (fun n hn => Or.inr (hfree n hn))
  refine ⟨a, w, h1, ?_, ?_⟩
  · have h0 : outcomeTotal (initAuth credentialManager validityWindow).metricsRegistry w0 = 0 :=
      rfl
    rw [h0] at h4
    unfold outcomeTotal at h4
    omega
  · intro c
    obtain ⟨r, k1, k2, _, _⟩ :=
      authenticate_keeps_free Base64URLDecode x c.now a w c.username c.password h3 h5
    obtain ⟨cred, err, a', w', j1, _, j3⟩ :=
      authenticate_increments Base64URLDecode x c.now a w c.username c.password h3
    rw [k2] at j1
    have hr : r = ((cred, err), a', w') := Except.ok.inj j1
    subst hr
    exact ⟨cred, err, a', w', k1, j3⟩

/-- C8, at the fresh library state of a test after `metrics.Init("router_test")`: a call
without credentials and a call with a current credential return, and the four counters
sum to two. -/
theorem authenticate_counts_outcome_witness :
    (∀ n, n ∈ ["malformed", "invalid", "expired", "valid"] →
      MustRegister testMetrics.«namespace» "authentication" n testWorld = none) ∧
    ∃ a w,
      authenticateAll (testDecoder 1700000000) (some testMetrics)
          (initAuth acceptingManager testWindow) testWorld
          [{ now := time.Unix 1700000000 0, username := "", password := "" },
           { now := time.Unix 1700000000 0, username := "dXNlcg", password := "cGFzcw" }]
        = Except.ok (a, w) ∧
      counterValue a.metricsRegistry w "malformed" + counterValue a.metricsRegistry w "invalid"
          + counterValue a.metricsRegistry w "expired" + counterValue a.metricsRegistry w "valid"
        = 2 :=
  ⟨by decide,
    match authenticate_counts_outcome (testDecoder 1700000000) testMetrics acceptingManager
      testWindow testWorld
      [{ now := time.Unix 1700000000 0, username := "", password := "" },
       { now := time.Unix 1700000000 0, username := "dXNlcg", password := "cGFzcw" }]
      (by decide) with
    | ⟨a, w, h1, h2, _⟩ => ⟨a, w, h1, h2⟩⟩

/-- C12: in a registry whose maps create their metrics with `promauto`, as every registry
of `NewMetricsRegistry` does, whenever `Counter`, `Gauge` or `Histogram` returns, the
registry keeps its subsystem and a metric the call created is built with the namespace
stored in `mtx`, which is the one given to `Init`, the subsystem of the registry, which
is the one given to `NewMetricsRegistry`, and the requested name; for a name the registry
holds nothing is created. The registry of `initAuth` has the subsystem "authentication":
whenever a sequence of calls of `authenticate` returns, its counters are stored under the
four outcome names and each was built with that subsystem and its own name. -/
theorem metrics_built_as_requested (x : Metrics) (m : MetricsRegistry) (name : String)
    (w : World) (h : Promauto m) :
    (∀ c m' w', Counter (some x) m name w = Except.ok (c, m', w') →
      m'.subsystem = m.subsystem ∧ Promauto m' ∧
      (m.counters.m.get name = none →
        c = { ref := w.counters.length } ∧
        w' = { w with counters := w.counters ++
          [{ opts := { Namespace := x.«namespace», Subsystem := m.subsystem, Name := name },
             incs := 0 }] }) ∧
      (m.counters.m.get name ≠ none → w' = w)) ∧
    (∀ g m' w', Gauge (some x) m name w = Except.ok (g, m', w') →
      m'.subsystem = m.subsystem ∧ Promauto m' ∧
      (m.gauges.m.get name = none →
        g = { ref := w.gauges.length } ∧
        w' = { w with gauges := w.gauges ++
          [{ Namespace := x.«namespace», Subsystem := m.subsystem, Name := name }] }) ∧
      (m.gauges.m.get name ≠ none → w' = w)) ∧
    (∀ g m' w', Histogram (some x) m name w = Except.ok (g, m', w') →
      m'.subsystem = m.subsystem ∧ Promauto m' ∧
      (m.histograms.m.get name = none →
        g = { ref := w.histograms.length } ∧
        w' = { w with histograms := w.histograms ++
          [{ Namespace := x.«namespace», Subsystem := m.subsystem, Name := name }] }) ∧
      (m.histograms.m.get name ≠ none → w' = w)) ∧
    (∀ subsystem : String,
      (NewMetricsRegistry subsystem).subsystem = subsystem ∧
      Promauto (NewMetricsRegistry subsystem)) ∧
    (∀ (E : Type) (InitEpochMetrics : Option Metrics → E → E) (pkg : Package E)
        (ns : String),
      pkg.mtx = none → (Init InitEpochMetrics pkg ns).2.mtx = some { «namespace» := ns }) ∧
    (∀ (Base64URLDecode : Decoder) (credentialManager : CredentialManager)
        (validityWindow : Int) (calls : List Call) (a : auth) (w' : World),
      (initAuth credentialManager validityWindow).metricsRegistry.subsystem
        = "authentication" ∧
      (authenticateAll Base64URLDecode (some x) (initAuth credentialManager validityWindow)
          w calls = Except.ok (a, w') →
        a.metricsRegistry.subsystem = "authentication" ∧
        ∀ n c, a.metricsRegistry.counters.m.get n = some c →
          n ∈ ["malformed", "invalid", "expired", "valid"] ∧
          (w'.counters[c.ref]?).map CounterCell.opts
            = some { Namespace := x.«namespace», Subsystem := "authentication",
                     Name := n })) := by
  refine ⟨?_, ?_, ?_, fun _ => ⟨rfl, rfl, rfl, rfl⟩, ?_, ?_⟩
  · intro c m' w' hret
    rcases Counter_cases x m name w with ⟨k1, _⟩ | ⟨k1, _⟩
    · rw [k1] at hret
      obtain ⟨c0, m0, w0, j1, j2, j3, j4, j5⟩ := Counter_creates x m name w h
      rw [j1] at hret
      simp only [Except.ok.injEq, Prod.mk.injEq] at hret
      obtain ⟨hc, hm, hw⟩ := hret
      subst hc hm hw
      exact ⟨j2, j3, j4, j5⟩
    · rw [k1] at hret
      cases hret
  · intro g m' w' hret
    rcases Gauge_cases x m name w with ⟨k1, _⟩ | ⟨k1, _⟩
    · rw [k1] at hret
      obtain ⟨c0, m0, w0, j1, j2, j3, j4, j5⟩ := Gauge_creates x m name w h
      rw [j1] at hret
      simp only [Except.ok.injEq, Prod.mk.injEq] at hret
      obtain ⟨hc, hm, hw⟩ := hret
      subst hc hm hw
      exact ⟨j2, j3, j4, j5⟩
    · rw [k1] at hret
      cases hret
  · intro g m' w' hret
    rcases Histogram_cases x m name w with ⟨k1, _⟩ | ⟨k1, _⟩
    · rw [k1] at hret
      obtain ⟨c0, m0, w0, j1, j2, j3, j4, j5⟩ := Histogram_creates x m name w h
      rw [j1] at hret
      simp only [Except.ok.injEq, Prod.mk.injEq] at hret
      obtain ⟨hc, hm, hw⟩ := hret
      subst hc hm hw
      exact ⟨j2, j3, j4, j5⟩
    · rw [k1] at hret
      cases hret
  · intro E InitEpochMetrics pkg ns hp
    simp [Init, hp]
  · intro Base64URLDecode credentialManager validityWindow calls a w'
    refine ⟨rfl, ?_⟩
    intro hret
    have h1 := authenticateAll_returns Base64URLDecode (some x) calls
      (initAuth credentialManager validityWindow) w (a, w') hret
    obtain ⟨a2, w2, k1, hlab, hsub, hkeys⟩ := authenticateAll_labelled Base64URLDecode x calls
      (initAuth credentialManager validityWindow) w
      (Registered_initAuth credentialManager validityWindow w)
      (by
        intro n c hc
        cases hc)
      (by
        intro n c hc
        cases hc)
    rw [h1] at k1
    simp only [Except.ok.injEq, Prod.mk.injEq] at k1
    obtain ⟨ha, hw⟩ := k1
    subst ha hw
    have hsub' : a.metricsRegistry.subsystem = "authentication" := hsub
    refine ⟨hsub', ?_⟩
    intro n c hc
    refine ⟨hkeys n c hc, ?_⟩
    have := hlab n c hc
    rw [hsub'] at this
    exact this

/-- C12, at the fresh registry of `initAuth` after `metrics.Init("router_test")`: the
first lookup of the counter "valid" returns, and the counter it creates has the namespace
"router_test", the subsystem "authentication" and the name "valid". -/
theorem metrics_built_as_requested_witness :
    Promauto (NewMetricsRegistry "authentication") ∧
    (∃ c m' w', Counter (some testMetrics) (NewMetricsRegistry "authentication") "valid"
      testWorld = Except.ok (c, m', w')) ∧
    ∀ c m' w', Counter (some testMetrics) (NewMetricsRegistry "authentication") "valid"
        testWorld = Except.ok (c, m', w') →
      c = { ref := 0 } ∧
      w' = { counters := [{ opts := { Namespace := "router_test",
                                       Subsystem := "authentication", Name := "valid" },
                             incs := 0 }],
             gauges := [], histograms := [] } :=
  ⟨⟨rfl, rfl, rfl⟩, ⟨_, _, _, rfl⟩,
    fun c m' w' hret =>
      ((metrics_built_as_requested testMetrics (NewMetricsRegistry "authentication")
        "valid" testWorld ⟨rfl, rfl, rfl⟩).1 c m' w' hret).2.2.1 rfl⟩

theorem authenticate_without_metrics (Base64URLDecode : Decoder) (now : time.Time)
    (a : auth) (w : World) (username password : String) :
    authenticate Base64URLDecode none now a w username password
      = Except.error Panic.nilDereference := by
  obtain ⟨name, cred, err, _, _, h2⟩ :=
    authenticate_branches Base64URLDecode none now a w username password
  rw [h2]
  rfl

theorem authenticate_with_metrics (Base64URLDecode : Decoder) (x : Metrics)
    (now : time.Time) (a : auth) (w : World) (username password : String) :
    authenticate Base64URLDecode (some x) now a w username password
      ≠ Except.error Panic.nilDereference := by
  obtain ⟨name, cred, err, _, _, h2⟩ :=
    authenticate_branches Base64URLDecode (some x) now a w username password
  rw [h2]
  rcases count_cases x a w name cred err with ⟨k1, _⟩ | ⟨k1, _⟩
  · rw [k1, count_eq]
    intro hh
    cases hh
  · rw [k1]
    intro hh
    cases hh

/-- C14, as stated, fails with the package initialised at three inputs. A lookup of the
empty name panics, because the empty name is no valid metric name. After `Counter("x")`
on a registry, `Gauge("x")` and `Histogram("x")` on the same registry panic, because the
name is registered already. And after one verifier of `initAuth` has counted a call, the
first call on a second verifier panics, for the same reason. -/
theorem lookups_fail_with_metrics_set :
    Counter (some testMetrics) (NewMetricsRegistry "authentication") "" testWorld
      = Except.error Panic.registration ∧
    (∃ c m w,
      Counter (some testMetrics) (NewMetricsRegistry "authentication") "x" testWorld
        = Except.ok (c, m, w) ∧
      Gauge (some testMetrics) m "x" w = Except.error Panic.registration ∧
      Histogram (some testMetrics) m "x" w = Except.error Panic.registration) ∧
    (∃ r a w,
      authenticate (testDecoder 1700000000) (some testMetrics) (time.Unix 1700000000 0)
          (initAuth acceptingManager testWindow) testWorld "" ""
        = Except.ok (r, a, w) ∧
      authenticate (testDecoder 1700000000) (some testMetrics) (time.Unix 1700000000 0)
          (initAuth acceptingManager testWindow) w "" ""
        = Except.error Panic.registration) :=
  ⟨rfl, ⟨_, _, _, rfl, rfl, rfl⟩, ⟨_, _, _, rfl, rfl⟩⟩

/-- C14, amended: `Counter`, `Gauge` and `Histogram` build the options, which reads
`mtx.namespace`, before they look the name up. So each of them panics with a nil
dereference exactly when `mtx` is nil, also for a name the registry holds already; `mtx`
is nil after `Deinit` and non-nil after an `Init` of the uninitialised package. With
`mtx` set a lookup returns exactly when the registry holds the name or the registration
of the new metric succeeds, and panics in the registration otherwise. `authenticate`
panics with the nil dereference on every input exactly when `mtx` is nil, so whenever it
returns, `mtx` is set. -/
theorem lookups_fail_iff (mtx : Option Metrics) (m : MetricsRegistry) (name : String)
    (w : World) :
    ((Counter mtx m name w = Except.error Panic.nilDereference ↔ mtx = none) ∧
      ∀ x, mtx = some x →
        ((∃ r, Counter mtx m name w = Except.ok r) ↔
          (m.counters.m.get name ≠ none
            ∨ MustRegister x.«namespace» m.subsystem name w = none)) ∧
        ((¬ ∃ r, Counter mtx m name w = Except.ok r) →
          Counter mtx m name w = Except.error Panic.registration)) ∧
    ((Gauge mtx m name w = Except.error Panic.nilDereference ↔ mtx = none) ∧
      ∀ x, mtx = some x →
        ((∃ r, Gauge mtx m name w = Except.ok r) ↔
          (m.gauges.m.get name ≠ none
            ∨ MustRegister x.«namespace» m.subsystem name w = none)) ∧
        ((¬ ∃ r, Gauge mtx m name w = Except.ok r) →
          Gauge mtx m name w = Except.error Panic.registration)) ∧
    ((Histogram mtx m name w = Except.error Panic.nilDereference ↔ mtx = none) ∧
      ∀ x, mtx = some x →
        ((∃ r, Histogram mtx m name w = Except.ok r) ↔
          (m.histograms.m.get name ≠ none
            ∨ MustRegister x.«namespace» m.subsystem name w = none)) ∧
        ((¬ ∃ r, Histogram mtx m name w = Except.ok r) →
          Histogram mtx m name w = Except.error Panic.registration)) ∧
    (∀ (E : Type) (InitEpochMetrics : Option Metrics → E → E) (pkg : Package E)
        (ns : String),
      (Deinit pkg).mtx = none ∧ (pkg.mtx = none → (Init InitEpochMetrics pkg ns).2.mtx ≠ none)) ∧
    (∀ (Base64URLDecode : Decoder) (now : time.Time) (a : auth) (username password : String),
      (authenticate Base64URLDecode mtx now a w username password
          = Except.error Panic.nilDereference ↔ mtx = none) ∧
      (∀ r, authenticate Base64URLDecode mtx now a w username password = Except.ok r →
        mtx ≠ none)) := by
  refine ⟨?_, ?_, ?_, ?_, ?_⟩
  · constructor
    · cases mtx with
      | none => exact ⟨fun _ => rfl, fun _ => rfl⟩
      | some x =>
        constructor
        · intro hh
          rcases Counter_cases x m name w with ⟨k1, _⟩ | ⟨k1, _⟩
          · rw [k1] at hh
            simp [MetricsRegistry.Counter] at hh
          · rw [k1] at hh
            cases hh
        · intro hh
          cases hh
    · intro x hx
      subst hx
      rcases Counter_cases x m name w with ⟨k1, k2⟩ | ⟨k1, k2, k3⟩
      · refine ⟨⟨fun _ => k2, fun _ => ⟨_, k1⟩⟩, ?_⟩
        intro hno
        exact absurd ⟨_, k1⟩ hno
      · refine ⟨⟨?_, ?_⟩, fun _ => k1⟩
        · rintro ⟨r, hr⟩
          rw [k1] at hr
          cases hr
        · rintro (hh | hh)
          · exact absurd k2 hh
          · rw [hh] at k3
            cases k3
  · constructor
    · cases mtx with
      | none => exact ⟨fun _ => rfl, fun _ => rfl⟩
      | some x =>
        constructor
        · intro hh
          rcases Gauge_cases x m name w with ⟨k1, _⟩ | ⟨k1, _⟩
          · rw [k1] at hh
            simp [MetricsRegistry.Gauge] at hh
          · rw [k1] at hh
            cases hh
        · intro hh
          cases hh
    · intro x hx
      subst hx
      rcases Gauge_cases x m name w with ⟨k1, k2⟩ | ⟨k1, k2, k3⟩
      · refine ⟨⟨fun _ => k2, fun _ => ⟨_, k1⟩⟩, ?_⟩
        intro hno
        exact absurd ⟨_, k1⟩ hno
      · refine ⟨⟨?_, ?_⟩, fun _ => k1⟩
        · rintro ⟨r, hr⟩
          rw [k1] at hr
          cases hr
        · rintro (hh | hh)
          · exact absurd k2 hh
          · rw [hh] at k3
            cases k3
  · constructor
    · cases mtx with
      | none => exact ⟨fun _ => rfl, fun _ => rfl⟩
      | some x =>
        constructor
        · intro hh
          rcases Histogram_cases x m name w with ⟨k1, _⟩ | ⟨k1, _⟩
          · rw [k1] at hh
            simp [MetricsRegistry.Histogram] at hh
          · rw [k1] at hh
            cases hh
        · intro hh
          cases hh
    · intro x hx
      subst hx
      rcases Histogram_cases x m name w with ⟨k1, k2⟩ | ⟨k1, k2, k3⟩
      · refine ⟨⟨fun _ => k2, fun _ => ⟨_, k1⟩⟩, ?_⟩
        intro hno
        exact absurd ⟨_, k1⟩ hno
      · refine ⟨⟨?_, ?_⟩, fun _ => k1⟩
        · rintro ⟨r, hr⟩
          rw [k1] at hr
          cases hr
        · rintro (hh | hh)
          · exact absurd k2 hh
          · rw [hh] at k3
            cases k3
  · intro E InitEpochMetrics pkg ns
    refine ⟨rfl, ?_⟩
    intro h
    simp [Init, h]
  · intro Base64URLDecode now a username password
    constructor
    · cases mtx with
      | none =>
        exact ⟨fun _ => rfl, fun _ => authenticate_without_metrics _ _ _ _ _ _⟩
      | some x =>
        constructor
        · intro hh
          exact absurd hh (authenticate_with_metrics _ x _ _ _ _ _)
        · intro hh
          cases hh
    · intro r hr hnone
      rw [hnone, authenticate_without_metrics] at hr
      cases hr

end registering
